import Mathlib

set_option maxRecDepth 8000

/-!
Shallow embedding of the Litmus worker execution engine
(worker/main.py, worker/util/assess.py, worker/util/docsnsnips.py).

Python strings are modelled as lists of characters, dynamic JSON-like
values as the inductive type `Json`, and Python exceptions as `Except PyErr`.
External collaborators (the HTTP transport, the judge model, the blob store,
the document store) are passed in as explicit oracle parameters; everything
else is translated statement by statement from the source.
-/

/-- Python strings, modelled as lists of characters. -/
abbrev Str := List Char

/-- Python `str(n)` for a natural number: decimal digits. -/
def natStr (n : Nat) : Str := (toString n).toList

/-- Scan for character `c`, returning the absolute index given that the
scan starts at absolute position `i`. -/
def strFindAux (c : Char) : Str → Nat → Int
  | [], _ => -1
  | d :: rest, i => if d = c then Int.ofNat i else strFindAux c rest (i + 1)

/-- Python `s.find(c, start)`: index of the first occurrence of the
one-character needle `c` at position `start` or later, `-1` when absent. -/
def strFindFrom (s : Str) (c : Char) (start : Nat) : Int :=
  strFindAux c (s.drop start) start

/-- Resolve a possibly negative Python index against a length. -/
def pyResolveIdx (len : Nat) (i : Int) : Int :=
  if i < 0 then i + len else i

/-- Python slice `s[a:b]` for integer bounds: negative bounds count from the
end, and both bounds are clamped to the string. -/
def pySlice (s : Str) (a b : Int) : Str :=
  let n := s.length
  let lo := (max 0 (pyResolveIdx n a)).toNat
  let hi := (max 0 (pyResolveIdx n b)).toNat
  (s.take hi).drop lo

/-- Python `s.split(sep)` for a one-character separator: splits on every
occurrence; the empty string yields `[""]`. -/
def splitOnChar (sep : Char) : Str → List Str
  | [] => [[]]
  | c :: cs =>
    match splitOnChar sep cs with
    | [] => if c = sep then [[], []] else [[c]]
    | p :: ps => if c = sep then [] :: p :: ps else (c :: p) :: ps

/-- Python `s.split(sep, 1)` for a one-character separator: the part before
the first occurrence, and (when the separator occurs) the rest. -/
def splitOnceChar (sep : Char) : Str → Str × Option Str
  | [] => ([], none)
  | c :: cs =>
    if c = sep then ([], some cs)
    else
      let (p, r) := splitOnceChar sep cs
      (c :: p, r)

/-- Substring test, as Python `needle in haystack` on strings. -/
def isSubstr (needle hay : Str) : Bool :=
  (List.range (hay.length + 1)).any (fun i => needle.isPrefixOf (hay.drop i))

/-- Numeric value of a digit string. -/
def digitsVal (ds : Str) : Int :=
  ds.foldl (fun a c => a * 10 + (Int.ofNat (c.toNat - '0'.toNat))) 0

/-- Python `int(s)`: optional surrounding whitespace, optional sign, one or
more decimal digits; anything else raises `ValueError` (modelled as `none`). -/
def pyInt (s : Str) : Option Int :=
  let t := s.dropWhile Char.isWhitespace
  let t := (t.reverse.dropWhile Char.isWhitespace).reverse
  match t with
  | '-' :: ds =>
    if !ds.isEmpty && ds.all Char.isDigit then some (-(digitsVal ds)) else none
  | '+' :: ds =>
    if !ds.isEmpty && ds.all Char.isDigit then some (digitsVal ds) else none
  | ds =>
    if !ds.isEmpty && ds.all Char.isDigit then some (digitsVal ds) else none

/-- A Python value as produced by `json` parsing: `null` is Python `None`,
mappings are insertion-ordered association lists with distinct keys, as
Python dicts. (The engine never computes with non-integer numbers, so
numeric leaves are integers.) -/
inductive Json where
  | null
  | bool (b : Bool)
  | num (n : Int)
  | str (s : Str)
  | arr (items : List Json)
  | obj (fields : List (Str × Json))

/-- Python `x is None`. -/
def Json.isNull : Json → Bool
  | .null => true
  | _ => false

/-- Python `x == s` for a string literal `s`: true exactly on the equal
string value. -/
def jsonEqStr (v : Json) (s : Str) : Bool :=
  match v with
  | .str t => t == s
  | _ => false

/-- The Python exceptions the embedded code raises or catches. -/
inductive PyErr where
  | typeError (msg : Str)
  | valueError (msg : Str)
  | keyError (msg : Str)
  | indexError (msg : Str)
  | jsonDecodeError (msg : Str)
  | requestError (msg : Str)
  | attributeError (msg : Str)
deriving DecidableEq, Repr

/-- Python `str(e)` of an exception: the carried message. -/
def pyErrStr : PyErr → Str
  | .typeError m => m
  | .valueError m => m
  | .keyError m => m
  | .indexError m => m
  | .jsonDecodeError m => m
  | .requestError m => m
  | .attributeError m => m

/-- Python `len(x)` for container values; `TypeError` otherwise. -/
def pyLen : Json → Except PyErr Nat
  | .str s => .ok s.length
  | .arr xs => .ok xs.length
  | .obj fs => .ok fs.length
  | _ => .error (.typeError "object has no len()".toList)

/-- Python `key in x` for a string key: mapping-key lookup for dicts,
element membership for lists, substring test for strings; `TypeError`
for non-container values. -/
def pyContains (x : Json) (key : Str) : Except PyErr Bool :=
  match x with
  | .obj fs => .ok (fs.any (fun kv => kv.1 == key))
  | .arr xs => .ok (xs.any (fun v => jsonEqStr v key))
  | .str s => .ok (isSubstr key s)
  | _ => .error (.typeError "argument is not iterable".toList)

/-- First binding of `key` in an association list (Python dict lookup;
keys are unique, so the first binding is the binding). -/
def lookupField (fs : List (Str × Json)) (key : Str) : Option Json :=
  match fs with
  | [] => none
  | (k, v) :: rest => if k = key then some v else lookupField rest key

/-- Python `x[key]` for a string key: dict lookup (`KeyError` when absent);
`TypeError` on lists and strings, whose indices must be integers. -/
def pySubscript (x : Json) (key : Str) : Except PyErr Json :=
  match x with
  | .obj fs =>
    match lookupField fs key with
    | some v => .ok v
    | none => .error (.keyError key)
  | .arr _ => .error (.typeError "list indices must be integers".toList)
  | .str _ => .error (.typeError "string indices must be integers".toList)
  | _ => .error (.typeError "object is not subscriptable".toList)

/-- Python `x[i]` for a non-negative integer index: list or string indexing
(`IndexError` when out of range), `KeyError` on dicts with string keys. -/
def pyIndexGet (x : Json) (i : Nat) : Except PyErr Json :=
  match x with
  | .arr xs =>
    match xs.get? i with
    | some v => .ok v
    | none => .error (.indexError "list index out of range".toList)
  | .str s =>
    match s.get? i with
    | some c => .ok (.str [c])
    | none => .error (.indexError "string index out of range".toList)
  | .obj _ => .error (.keyError (natStr i))
  | _ => .error (.typeError "object is not subscriptable".toList)

/-- Python truthiness. -/
def pyTruthy : Json → Bool
  | .null => false
  | .bool b => b
  | .num n => n != 0
  | .str s => !s.isEmpty
  | .arr xs => !xs.isEmpty
  | .obj fs => !fs.isEmpty

/-- Python dict assignment `d[k] = v`: replace the existing binding in
place, or append a new one. -/
def dictInsert (fs : List (Str × Json)) (key : Str) (v : Json) :
    List (Str × Json) :=
  match fs with
  | [] => [(key, v)]
  | (k, w) :: rest =>
    if k = key then (k, v) :: rest else (k, w) :: dictInsert rest key v

/-- One iteration of `filter_json`'s segment loop (worker/main.py 532-548)
on a non-`None` current value. A bracketed segment parses its index with
`int(...)`, guards `0 <= index < len(current_data)` -- the length of the
*enclosing* value, exactly as the source writes it -- and then evaluates
`current_data[key][index]`. A `Json.null` result models the source setting
`current_data = None` and breaking. -/
def filterStep (current : Json) (key : Str) : Except PyErr Json :=
  if key.contains '[' && key.contains ']' then
    let base := (splitOnceChar '[' key).1
    let idxStr :=
      match (splitOnceChar '[' key).2 with
      | some rest => rest.dropLast
      | none => []
    match pyInt idxStr with
    | none => .error (.valueError "invalid literal for int()".toList)
    | some index =>
      if index < 0 then .ok .null
      else do
        let n ← pyLen current
        if index < (n : Int) then do
          let mem ← pyContains current base
          if mem then do
            let v ← pySubscript current base
            pyIndexGet v index.toNat
          else .ok .null
        else .ok .null
  else do
    let mem ← pyContains current key
    if mem then pySubscript current key else .ok .null

/-- The `for key in keys` traversal of `filter_json` (worker/main.py
531-548): once the current value is `None` every remaining segment is
skipped by the `is not None` guard. -/
def filterTraverse : Json → List Str → Except PyErr Json
  | current, [] => .ok current
  | current, key :: rest =>
    if current.isNull then .ok .null
    else do filterTraverse (← filterStep current key) rest

/-- The `for filter_path in filter_paths` loop of `filter_json`
(worker/main.py 527-552), threading the `new_data` accumulator: a path
whose traversal ends in `None` adds nothing. -/
def filterLoop (data : Json) (paths : List Str)
    (acc : List (Str × Json)) : Except PyErr (List (Str × Json)) :=
  match paths with
  | [] => .ok acc
  | path :: rest => do
    let cur ← filterTraverse data (splitOnChar '.' path)
    if cur.isNull then filterLoop data rest acc
    else filterLoop data rest (dictInsert acc path cur)

/-- `filter_json(data, filter_pathx)` from worker/main.py 509-554.
`none` models passing Python `None` as the filter path; a falsy path
(`None` or the empty string) returns `data` unchanged. -/
def filter_json (data : Json) (filter_pathx : Option Str) :
    Except PyErr Json :=
  match filter_pathx with
  | none => .ok data
  | some fp =>
    if fp.isEmpty then .ok data
    else do
      let fields ← filterLoop data (splitOnChar ',' fp) []
      pure (.obj fields)

example :
    filter_json (.obj [("a".toList, .obj [("b".toList, .arr [.num 10, .num 20])])])
      (some "a.b[1]".toList) = .ok (.obj []) := by rfl

example :
    filter_json (.obj [("a".toList, .obj [("b".toList, .arr [.num 10, .num 20])])])
      (some "a.b[0]".toList) =
      .ok (.obj [("a.b[0]".toList, .num 10)]) := by rfl

example :
    filter_json (.obj [("a".toList, .arr [.num 10]), ("x".toList, .num 1)])
      (some "a[1]".toList) =
      .error (.indexError "list index out of range".toList) := by rfl

example :
    filter_json (.obj [("a".toList, .num 5)]) (some "a.b".toList) =
      .error (.typeError "argument is not iterable".toList) := by rfl

example :
    filter_json (.obj [("a".toList, .obj [("b".toList, .num 1)])])
      (some "a.b".toList) = .ok (.obj [("a.b".toList, .num 1)]) := by rfl

example :
    filter_json (.obj [("a.b".toList, .num 1)]) (some "a.b".toList) =
      .ok (.obj []) := by rfl

/-- Python `s.rfind(c)` for a one-character needle: index of the last
occurrence, `-1` when absent. -/
def strRFind (s : Str) (c : Char) : Int :=
  let i := strFindFrom s.reverse c 0
  if i < 0 then -1 else Int.ofNat (s.length - 1 - i.toNat)

/-- The scanning loop of `strip_references` (docsnsnips.py 50-64). `p`
strictly increases on every continuing iteration, so `statement.length + 1`
rounds of fuel always suffice. `out += statement[p:q]` is a Python slice
whose end may be the *int* `-1` returned by `find`, which silently slices
up to the second-to-last character. -/
def stripRefsLoop (statement : Str) : Nat → Nat → Str → Str
  | 0, _, out => out
  | fuel + 1, p, out =>
    if p = statement.length then out
    else
      let q := strFindFrom statement '[' p
      let out := out ++ pySlice statement (Int.ofNat p) q
      if q < 0 then out
      else
        let v := strFindFrom statement ']' (q.toNat + 1)
        if v < 0 then out
        else stripRefsLoop statement fuel (v.toNat + 1) out

/-- `strip_references(statement)` from docsnsnips.py 41-64. -/
def strip_references (statement : Str) : Str :=
  stripRefsLoop statement (statement.length + 1) 0 []

example : strip_references "abc".toList = "ab".toList := by rfl

example : strip_references "see [3].".toList = "see ".toList := by rfl

example : strip_references "a[3]b".toList = "a".toList := by rfl

example : strip_references [] = [] := by rfl

/-- `cleanup_json(x)` from docsnsnips.py 20-38: drop every single-quote
character, take the substring from the first opening brace to the last
closing brace inclusive (`None` when no such pair exists), and turn
newlines into spaces. -/
def cleanup_json (x : Str) : Option Str :=
  let y := x.filter (fun c => c != '\x27')
  let startBrace := strFindFrom y '\x7b' 0
  if startBrace = -1 then none
  else
    let endBrace := strRFind y '\x7d'
    if endBrace = -1 then none
    else if startBrace > endBrace then none
    else
      some ((pySlice y startBrace (endBrace + 1)).map
        (fun c => if c = '\n' then ' ' else c))

example :
    cleanup_json "prose \x7b\x27similarity\x27: 1\x7d more prose".toList =
      some "\x7bsimilarity: 1\x7d".toList := by rfl

example : cleanup_json "no braces here".toList = none := by rfl

/-- JSON insignificant whitespace. -/
def isJsonWs (c : Char) : Bool :=
  c == ' ' || c == '\t' || c == '\n' || c == '\r'

/-- Skip insignificant whitespace. -/
def skipWs (s : Str) : Str := s.dropWhile isJsonWs

/-- Hex digit value. -/
def hexVal (c : Char) : Option Nat :=
  if '0' ≤ c ∧ c ≤ '9' then some (c.toNat - '0'.toNat)
  else if 'a' ≤ c ∧ c ≤ 'f' then some (c.toNat - 'a'.toNat + 10)
  else if 'A' ≤ c ∧ c ≤ 'F' then some (c.toNat - 'A'.toNat + 10)
  else none

/-- Parse the body of a JSON string literal after the opening quote:
returns the decoded content and the text after the closing quote.
Raw control characters are rejected, as in Python's strict decoder.
(Surrogate-pair recombination is not modelled; the engine never feeds
astral-plane escapes through `json.loads`.) -/
def parseJStrBody : Nat → Str → Option (Str × Str)
  | 0, _ => none
  | _fuel + 1, [] => none
  | fuel + 1, c :: rest =>
    if c = '"' then some ([], rest)
    else if c = '\\' then
      match rest with
      | [] => none
      | e :: rest2 =>
        let dec : Option (Char × Str) :=
          if e = '"' then some ('"', rest2)
          else if e = '\\' then some ('\\', rest2)
          else if e = '/' then some ('/', rest2)
          else if e = 'b' then some ('\x08', rest2)
          else if e = 'f' then some ('\x0c', rest2)
          else if e = 'n' then some ('\n', rest2)
          else if e = 'r' then some ('\r', rest2)
          else if e = 't' then some ('\t', rest2)
          else if e = 'u' then
            match rest2 with
            | h1 :: h2 :: h3 :: h4 :: rest3 =>
              match hexVal h1, hexVal h2, hexVal h3, hexVal h4 with
              | some a, some b, some c2, some d =>
                some (Char.ofNat (((a * 16 + b) * 16 + c2) * 16 + d), rest3)
              | _, _, _, _ => none
            | _ => none
          else none
        match dec with
        | none => none
        | some (ch, rest3) =>
          match parseJStrBody fuel rest3 with
          | some (content, rem) => some (ch :: content, rem)
          | none => none
    else if c.toNat < 32 then none
    else
      match parseJStrBody fuel rest with
      | some (content, rem) => some (c :: content, rem)
      | none => none

/-- Parse a JSON integer literal: optional minus, then `0` or a nonzero
digit followed by digits. A fraction or exponent suffix makes the literal
a float, which is outside this embedding's numeric model and is rejected;
none of the engine's decoded payloads under study carry float literals. -/
def parseJNum (s : Str) : Option (Int × Str) :=
  let (neg, t) :=
    match s with
    | '-' :: t => (true, t)
    | _ => (false, s)
  let ds := t.takeWhile Char.isDigit
  let rest := t.drop ds.length
  if ds.isEmpty then none
  else if ds.length > 1 ∧ ds.headI = '0' then none
  else
    match rest with
    | '.' :: _ => none
    | 'e' :: _ => none
    | 'E' :: _ => none
    | _ => some (if neg then -(digitsVal ds) else digitsVal ds, rest)

mutual

/-- Parse one JSON value (leading whitespace allowed), returning the value
and the remaining text. -/
def parseJValue : Nat → Str → Option (Json × Str)
  | 0, _ => none
  | fuel + 1, s =>
    match skipWs s with
    | [] => none
    | c :: rest =>
      if c = '\x7b' then
        match skipWs rest with
        | '\x7d' :: rem => some (.obj [], rem)
        | t => parseJMembers fuel t []
      else if c = '[' then
        match skipWs rest with
        | ']' :: rem => some (.arr [], rem)
        | t => parseJItems fuel t []
      else if c = '"' then
        match parseJStrBody fuel rest with
        | some (content, rem) => some (.str content, rem)
        | none => none
      else if c = 't' then
        if "rue".toList.isPrefixOf rest then some (.bool true, rest.drop 3) else none
      else if c = 'f' then
        if "alse".toList.isPrefixOf rest then some (.bool false, rest.drop 4) else none
      else if c = 'n' then
        if "ull".toList.isPrefixOf rest then some (.null, rest.drop 3) else none
      else
        match parseJNum (c :: rest) with
        | some (n, rem) => some (.num n, rem)
        | none => none

/-- Parse the members of a JSON object after at least one member is known
to follow, accumulating into `acc` with dict-assignment semantics. -/
def parseJMembers : Nat → Str → List (Str × Json) → Option (Json × Str)
  | 0, _, _ => none
  | fuel + 1, s, acc =>
    match skipWs s with
    | '"' :: rest =>
      match parseJStrBody fuel rest with
      | some (key, afterKey) =>
        match skipWs afterKey with
        | ':' :: afterColon =>
          match parseJValue fuel afterColon with
          | some (v, afterVal) =>
            let acc := dictInsert acc key v
            match skipWs afterVal with
            | ',' :: more => parseJMembers fuel more acc
            | '\x7d' :: rem => some (.obj acc, rem)
            | _ => none
          | none => none
        | _ => none
      | none => none
    | _ => none

/-- Parse the items of a JSON array after at least one item is known to
follow. -/
def parseJItems : Nat → Str → List Json → Option (Json × Str)
  | 0, _, _ => none
  | fuel + 1, s, acc =>
    match parseJValue fuel s with
    | some (v, afterVal) =>
      match skipWs afterVal with
      | ',' :: more => parseJItems fuel more (acc ++ [v])
      | ']' :: rem => some (.arr (acc ++ [v]), rem)
      | _ => none
    | none => none

end

/-- Parse a complete JSON document: one value with nothing but whitespace
after it. -/
def parseTop (s : Str) : Option Json :=
  match parseJValue (s.length + 1) s with
  | some (v, rest) => if (skipWs rest).isEmpty then some v else none
  | none => none

/-- `json.loads(x)` where `x` may be Python `None` (as `cleanup_json`
returns): `TypeError` on `None`, `JSONDecodeError` when the text does not
parse as JSON. -/
def json_loads (x : Option Str) : Except PyErr Json :=
  match x with
  | none => .error (.typeError "the JSON object must be str, not NoneType".toList)
  | some s =>
    match parseTop s with
    | some j => .ok j
    | none => .error (.jsonDecodeError "Expecting value".toList)

example :
    json_loads (some "\x7b\"request\": \"hi\"\x7d".toList) =
      .ok (.obj [("request".toList, .str "hi".toList)]) := by rfl

example :
    json_loads (some " [1, -2, null, true] ".toList) =
      .ok (.arr [.num 1, .num (-2), .null, .bool true]) := by rfl

example :
    json_loads (some "\x7bsimilarity: 1\x7d".toList) =
      .error (.jsonDecodeError "Expecting value".toList) := by rfl

/-- Render a natural number below 0x10000 as four uppercase hex digits. -/
def hex4 (n : Nat) : Str :=
  let dig := fun (k : Nat) =>
    if k < 10 then Char.ofNat ('0'.toNat + k) else Char.ofNat ('A'.toNat + k - 10)
  [dig (n / 4096 % 16), dig (n / 256 % 16), dig (n / 16 % 16), dig (n % 16)]

/-- Escape one character of a JSON string as `json.dumps` does with its
default `ensure_ascii=True`. (Astral-plane characters, which Python
renders as surrogate pairs, are left raw; the engine's payloads under
study are ASCII.) -/
def jdumpsEscape (c : Char) : Str :=
  if c = '"' then ['\\', '"']
  else if c = '\\' then ['\\', '\\']
  else if c = '\n' then ['\\', 'n']
  else if c = '\t' then ['\\', 't']
  else if c = '\r' then ['\\', 'r']
  else if c = '\x08' then ['\\', 'b']
  else if c = '\x0c' then ['\\', 'f']
  else if c.toNat < 32 ∨ (127 ≤ c.toNat ∧ c.toNat < 65536) then
    '\\' :: 'u' :: hex4 c.toNat
  else [c]

/-- Serialize a string literal as `json.dumps` does. -/
def jdumpsStr (s : Str) : Str :=
  '"' :: s.foldr (fun c acc => jdumpsEscape c ++ acc) ['"']

mutual

/-- `json.dumps(x)` with the default separators `", "` and `": "`. -/
def jdumps : Json → Str
  | .null => "null".toList
  | .bool true => "true".toList
  | .bool false => "false".toList
  | .num n => (toString n).toList
  | .str s => jdumpsStr s
  | .arr xs => '[' :: (jdumpsItems xs ++ [']'])
  | .obj fs => '\x7b' :: (jdumpsFields fs ++ ['\x7d'])

/-- Comma-join the serialized items of an array. -/
def jdumpsItems : List Json → Str
  | [] => []
  | [x] => jdumps x
  | x :: xs => jdumps x ++ ", ".toList ++ jdumpsItems xs

/-- Comma-join the serialized members of an object. -/
def jdumpsFields : List (Str × Json) → Str
  | [] => []
  | [(k, v)] => jdumpsStr k ++ ": ".toList ++ jdumps v
  | (k, v) :: fs => jdumpsStr k ++ ": ".toList ++ jdumps v ++ ", ".toList ++ jdumpsFields fs

end

example :
    jdumps (.obj [("a".toList, .arr [.num 1, .str "x".toList])]) =
      "\x7b\"a\": [1, \"x\"]\x7d".toList := by rfl

/-- The scanning loop of Python `s.replace(old, new)` for non-empty `old`:
non-overlapping, leftmost first. Every step consumes at least one input
character, so `s.length` rounds of fuel suffice. -/
def strReplaceLoop (old new : Str) : Nat → Str → Str
  | 0, s => s
  | _fuel + 1, [] => []
  | fuel + 1, c :: cs =>
    if old.isPrefixOf (c :: cs) then
      new ++ strReplaceLoop old new fuel ((c :: cs).drop old.length)
    else c :: strReplaceLoop old new fuel cs

/-- Python `s.replace(old, new)` (all occurrences). -/
def strReplace (s old new : Str) : Str :=
  if old.isEmpty then s else strReplaceLoop old new s.length s

example :
    strReplace "a-b-c".toList "-".toList "+".toList = "a+b+c".toList := by rfl

/-- Smallest index `j ≥ k + 1` of `t` holding `]` such that no character of
`t[k:j]` is a newline (the regex atom `(.+?)\]` applied after `k` leading
whitespace characters were consumed by `\s*`). -/
def firstCloseNoNl (t : Str) (k : Nat) : Option Nat :=
  (List.range t.length).find? (fun j =>
    decide (k + 1 ≤ j) &&
    (match t.get? j with | some c => c == ']' | none => false) &&
    ((t.drop k).take (j - k)).all (fun c => c != '\n'))

/-- Backtracking over the greedy `\s*` of `\[FILE:\s*(.+?)\]`: try the
maximal whitespace-run length first, then shorter runs. On success, return
the capture and the text after the closing bracket. -/
def fileRefTryK (t : Str) : Nat → Option (Str × Str)
  | 0 =>
    match firstCloseNoNl t 0 with
    | some j => some (t.take j, t.drop (j + 1))
    | none => none
  | k + 1 =>
    match firstCloseNoNl t (k + 1) with
    | some j => some ((t.drop (k + 1)).take (j - (k + 1)), t.drop (j + 1))
    | none => fileRefTryK t k

/-- Match `\s*(.+?)\]` against `t` (the text just after a literal
`[FILE:`). -/
def fileRefMatchAt (t : Str) : Option (Str × Str) :=
  fileRefTryK t (t.takeWhile Char.isWhitespace).length

/-- `re.findall(r"\[FILE:\s*(.+?)\]", s)`: left-to-right, non-overlapping
scan; after a failed literal match the scan advances one character. -/
def fileRefFindAll : Nat → Str → List Str
  | 0, _ => []
  | _fuel + 1, [] => []
  | fuel + 1, s =>
    if "[FILE:".toList.isPrefixOf s then
      match fileRefMatchAt (s.drop 6) with
      | some (cap, rest) => cap :: fileRefFindAll fuel rest
      | none => fileRefFindAll fuel s.tail
    else fileRefFindAll fuel s.tail

example :
    fileRefFindAll 100 "x [FILE: a.txt] y [FILE:b] z".toList =
      ["a.txt".toList, "b".toList] := by rfl

/-- `replace_file_reference_in_string` (worker/main.py 147-166). `gcs`
models `read_file_from_gcs`, which never raises (it degrades to an inline
error string); `filesPref` is the module-level `FILES_PREFIX` value. The
source spells the fetch argument as an (unparseable) brace display where
an f-string concatenating prefix and match is evidently meant; the
replacement target carries exactly one space after the colon, so a
reference written with different spacing is fetched but never replaced. -/
def replace_file_reference_in_string (gcs : Str → Str) (filesPref : Str)
    (text : Str) : Str :=
  let ms := fileRefFindAll (text.length + 1) text
  ms.foldl
    (fun t m =>
      strReplace t ("[FILE: ".toList ++ m ++ "]".toList) (gcs (filesPref ++ m)))
    text

mutual

/-- `process_file_references` (worker/main.py 126-144), value level:
strings have their file references replaced, mappings and sequences are
processed recursively, everything else passes through. (The in-place
versus rebuilt distinction of the source is studied separately on the
heap model below.) -/
def process_file_references (gcs : Str → Str) (filesPref : Str) : Json → Json
  | .str s => .str (replace_file_reference_in_string gcs filesPref s)
  | .obj fs => .obj (procFields gcs filesPref fs)
  | .arr xs => .arr (procItems gcs filesPref xs)
  | .null => .null
  | .bool b => .bool b
  | .num n => .num n

/-- The `for key, value in data.items()` recursion of
`process_file_references` over a mapping's values. -/
def procFields (gcs : Str → Str) (filesPref : Str) :
    List (Str × Json) → List (Str × Json)
  | [] => []
  | (k, v) :: rest =>
    (k, process_file_references gcs filesPref v) :: procFields gcs filesPref rest

/-- The list-comprehension recursion of `process_file_references` over a
sequence's items. -/
def procItems (gcs : Str → Str) (filesPref : Str) : List Json → List Json
  | [] => []
  | x :: rest =>
    process_file_references gcs filesPref x :: procItems gcs filesPref rest

end

example :
    process_file_references (fun p => p ++ "!".toList) "pre/".toList
      (.obj [("q".toList, .str "ask [FILE: f] now".toList)]) =
      .obj [("q".toList, .str "ask pre/f! now".toList)] := by rfl

/-- Python `str.lower()` (ASCII). -/
def strLower (s : Str) : Str := s.map Char.toLower

/-- Python `str.strip()`: remove leading and trailing whitespace. -/
def strStrip (s : Str) : Str :=
  ((s.dropWhile Char.isWhitespace).reverse.dropWhile Char.isWhitespace).reverse

/-- `ask_llm_for_action` (assess.py 120-167), the judge model's raw
completion text passed in as `llm_output` (the mission description and
history only shape the prompt sent to the external model). Only
`json.JSONDecodeError` is caught, returning Python `None`; the
`TypeError` raised by `json.loads(None)` when the output contains no
brace-delimited substring propagates to the caller. -/
def ask_llm_for_action (llm_output : Str) : Except PyErr Json :=
  match json_loads (cleanup_json llm_output) with
  | .ok v => .ok v
  | .error (.jsonDecodeError _m) => .ok .null
  | .error e => .error e

/-- `is_mission_done` (assess.py 170-209): accepts exactly a
case-insensitive, whitespace-stripped `yes`/`no`; anything else is
`False`. -/
def is_mission_done (llm_output : Str) : Bool :=
  let t := strLower (strStrip llm_output)
  if t == "yes".toList then true
  else if t == "no".toList then false
  else false

/-- `evaluate_mission` (assess.py 212-278), the judge model's raw
completion text passed in as `llm_output`. `json.JSONDecodeError` is
caught and turned into an error mapping; the `TypeError` from
`json.loads(None)` on brace-free output propagates. -/
def evaluate_mission (llm_output : Str) : Except PyErr Json :=
  match json_loads (cleanup_json llm_output) with
  | .ok v => .ok v
  | .error (.jsonDecodeError _m) =>
    .ok (.obj [("error".toList, .str "Could not parse LLM assessment".toList)])
  | .error e => .error e

example :
    ask_llm_for_action "\x7b\"request\": \"hello\"\x7d".toList =
      .ok (.obj [("request".toList, .str "hello".toList)]) := by rfl

example :
    ask_llm_for_action "\x7bbroken\x7d".toList = .ok .null := by rfl

example :
    ask_llm_for_action "no json here".toList =
      .error (.typeError "the JSON object must be str, not NoneType".toList) := by
  rfl

example : is_mission_done "  YES ".toList = true := by rfl

example : is_mission_done "Yes, it is done".toList = false := by rfl

mutual

/-- Python `repr(x)` for decoded JSON-like values (container printing uses
single quotes around strings; fine-grained string escaping is not
modelled -- the engine only ever feeds plain text through `str`). -/
def pyRepr : Json → Str
  | .null => "None".toList
  | .bool true => "True".toList
  | .bool false => "False".toList
  | .num n => (toString n).toList
  | .str s => '\x27' :: (s ++ ['\x27'])
  | .arr xs => '[' :: (pyReprItems xs ++ [']'])
  | .obj fs => '\x7b' :: (pyReprFields fs ++ ['\x7d'])

/-- Comma-join of `repr` over list items. -/
def pyReprItems : List Json → Str
  | [] => []
  | [x] => pyRepr x
  | x :: xs => pyRepr x ++ ", ".toList ++ pyReprItems xs

/-- Comma-join of `repr` over dict items. -/
def pyReprFields : List (Str × Json) → Str
  | [] => []
  | [(k, v)] => ('\x27' :: (k ++ ['\x27'])) ++ ": ".toList ++ pyRepr v
  | (k, v) :: fs =>
    ('\x27' :: (k ++ ['\x27'])) ++ ": ".toList ++ pyRepr v ++ ", ".toList ++
      pyReprFields fs

end

/-- Python `str(x)`: identity on strings, `repr`-style rendering
otherwise. -/
def pyStr : Json → Str
  | .str s => s
  | x => pyRepr x

/-- Python `x.get(key)` (dict method): `None` when the key is absent;
`AttributeError` when `x` is not a mapping. -/
def dictGet (x : Json) (key : Str) : Except PyErr Json :=
  match x with
  | .obj fs => .ok ((lookupField fs key).getD .null)
  | _ => .error (.attributeError "object has no attribute get".toList)

/-- Python `x.get(key, default)`. -/
def dictGetD (x : Json) (key : Str) (dflt : Json) : Except PyErr Json :=
  match x with
  | .obj fs => .ok ((lookupField fs key).getD dflt)
  | _ => .error (.attributeError "object has no attribute get".toList)

/-- Python `x[key] = v` for a string key, returning the updated value:
only mappings support item assignment. -/
def pySetItem (x : Json) (key : Str) (v : Json) : Except PyErr Json :=
  match x with
  | .obj fs => .ok (.obj (dictInsert fs key v))
  | _ => .error (.typeError "object does not support item assignment".toList)

/-- What the HTTP transport did for one dispatched request: a response
with a status code and raw body text, or a transport-level failure with no
response at all (a `requests.exceptions.RequestException` carrying no
response). -/
inductive HttpOutcome where
  | resp (status : Nat) (bodyText : Str)
  | transportErr (msg : Str)

/-- The mapping `{"status": "Failed", "error": msg}` that `execute_request`
returns on every recovered failure. -/
def failedResult (msg : Str) : Json :=
  .obj [("status".toList, .str "Failed".toList), ("error".toList, .str msg)]

/-- `True` when `method` is one of the four verbs `execute_request`
dispatches. -/
def isVerb (method : Json) : Bool :=
  jsonEqStr method "POST".toList || jsonEqStr method "GET".toList ||
    jsonEqStr method "PUT".toList || jsonEqStr method "DELETE".toList

/-- `execute_request(request_data)` from worker/main.py 57-123, value
level. `net` is what the transport did for this dispatch, `gcs`/`filesPref`
feed the file-reference resolution. Everything inside the source's `try`
is modelled by `attempt`, an `Except` carrying the `status_code` local at
the moment of raising: `requests` raises `HTTPError` from
`raise_for_status` exactly for 4xx/5xx statuses, `response.json()` raises
a decode error on unparseable bodies, and an unsupported method raises
`ValueError` before any dispatch; every one of these is caught by the
`except` clauses and becomes `({"status": "Failed", ...}, status_code)`.
The only statements outside the `try` are the header injection (which
raises `TypeError` when `headers` is not a mapping and a tracing id is
present) and the body's file-reference resolution. -/
def execute_request (net : HttpOutcome) (gcs : Str → Str) (filesPref : Str)
    (request_data : Json) : Except PyErr (Json × Nat) := do
  let _url ← dictGet request_data "url".toList
  let method ← dictGetD request_data "method".toList (.str "POST".toList)
  let body ← dictGet request_data "body".toList
  let headers ← dictGet request_data "headers".toList
  let tracing_id ← dictGet request_data "tracing_id".toList
  let _headers ←
    if pyTruthy tracing_id then
      pySetItem headers "X-Litmus-Request".toList tracing_id
    else pure headers
  let _body := process_file_references gcs filesPref body
  let attempt : Except (PyErr × Nat) (Json × Nat) :=
    if isVerb method then
      match net with
      | .transportErr m => .error (.requestError m, 0)
      | .resp s bodyText =>
        if 400 ≤ s ∧ s < 600 then
          .error (.requestError ("HTTP Error ".toList ++ natStr s), s)
        else
          match parseTop bodyText with
          | some j => .ok (j, s)
          | none => .error (.jsonDecodeError "Expecting value".toList, s)
    else
      .error (.valueError ("Unsupported HTTP method: ".toList ++ pyStr method), 0)
  match attempt with
  | .ok r => .ok r
  | .error (e, code) => .ok (failedResult (pyErrStr e), code)

example :
    execute_request (.resp 200 "\x7b\"answer\": \"Paris\"\x7d".toList)
      (fun _ => []) [] (.obj [("url".toList, .str "http://u".toList)]) =
      .ok (.obj [("answer".toList, .str "Paris".toList)], 200) := by rfl

example :
    execute_request (.transportErr "connection refused".toList)
      (fun _ => []) [] (.obj [("url".toList, .str "http://u".toList)]) =
      .ok (failedResult "connection refused".toList, 0) := by rfl

example :
    execute_request (.resp 404 "missing".toList)
      (fun _ => []) [] (.obj [("url".toList, .str "http://u".toList)]) =
      .ok (failedResult ("HTTP Error ".toList ++ natStr 404), 404) := by rfl

example :
    execute_request (.resp 304 "\x7b\x7d".toList)
      (fun _ => []) [] (.obj [("url".toList, .str "http://u".toList)]) =
      .ok (.obj [], 304) := by rfl

example :
    execute_request (.resp 200 "I am not JSON".toList)
      (fun _ => []) [] (.obj [("url".toList, .str "http://u".toList)]) =
      .ok (failedResult "Expecting value".toList, 200) := by rfl

example :
    execute_request (.resp 200 "\x7b\x7d".toList) (fun _ => []) []
      (.obj [("url".toList, .str "http://u".toList),
             ("tracing_id".toList, .str "t1".toList)]) =
      .error (.typeError "object does not support item assignment".toList) := by
  rfl

/-- One conversation entry `{"role": ..., "content": ...}`. -/
structure Turn where
  role : Str
  content : Json

/-- Conversation history as the JSON value stored into results. -/
def histJson (hist : List Turn) : Json :=
  .arr (hist.map (fun t =>
    .obj [("role".toList, .str t.role), ("content".toList, t.content)]))

/-- One invocation of the judge model, recorded with the conversation
history it was shown. -/
inductive JudgeCall where
  | action (history : List Turn)
  | done (history : List Turn)
  | assess (history : List Turn)

/-- Is this judge call the final mission assessment? -/
def JudgeCall.isAssess : JudgeCall → Bool
  | .assess _ => true
  | _ => false

/-- The external collaborators of one mission execution: the judge model's
raw completion text for each of its three prompts (a function of the
conversation history it is shown), the HTTP transport's behaviour on each
turn, and the blob store. -/
structure MissionEnv where
  actionText : List Turn → Str
  doneText : List Turn → Str
  assessText : List Turn → Str
  net : Nat → HttpOutcome
  gcs : Str → Str
  filesPref : Str

/-- `{"status": "Error", "error": f"Invalid LLM action on turn {turn+1}"}`. -/
def invalidActionResult (turn : Nat) : Json :=
  .obj [("status".toList, .str "Error".toList),
        ("error".toList, .str ("Invalid LLM action on turn ".toList ++ natStr (turn + 1)))]

/-- The `try` body of one mission turn (worker/main.py 211-291).
Returns the raised exception or the break/continue decision
(`some test_result` = break, `none` = fall through to the next turn),
together with the conversation history and request/response history as
mutated so far -- appends performed before a raise survive it -- and the
judge calls issued. -/
def missionTurnBody (env : MissionEnv) (request_tmpl : Json) (tracing_id : Str)
    (output_field : Option Str) (turn : Nat) (hist : List Turn)
    (rr : List Json) :
    Except PyErr (Option Json) × List Turn × List Json × List JudgeCall :=
  let log : List JudgeCall := [.action hist]
  match ask_llm_for_action (env.actionText hist) with
  | .error e => (.error e, hist, rr, log)
  | .ok llm_action =>
    if !pyTruthy llm_action then
      (.ok (some (invalidActionResult turn)), hist, rr, log)
    else
      match pyContains llm_action "request".toList with
      | .error e => (.error e, hist, rr, log)
      | .ok hasReq =>
        if !hasReq then (.ok (some (invalidActionResult turn)), hist, rr, log)
        else
          match pySetItem request_tmpl "tracing_id".toList (.str tracing_id) with
          | .error e => (.error e, hist, rr, log)
          | .ok rdTraced =>
            match pySubscript llm_action "request".toList with
            | .error e => (.error e, hist, rr, log)
            | .ok q =>
              let json_string :=
                strReplace (jdumps rdTraced) "\x7bquery\x7d".toList (pyStr q)
              match json_loads (some json_string) with
              | .error e => (.error e, hist, rr, log)
              | .ok request_data =>
                let hist := hist ++ [⟨"user".toList, q⟩]
                match execute_request (env.net turn) env.gcs env.filesPref
                    request_data with
                | .error e => (.error e, hist, rr, log)
                | .ok (actual_response, status_code) =>
                  let rr := rr ++ [Json.obj
                    [("request".toList, request_data),
                     ("response".toList, actual_response),
                     ("status_code".toList, .num status_code)]]
                  match pyContains actual_response "status".toList with
                  | .error e => (.error e, hist, rr, log)
                  | .ok hasStatus =>
                    match
                      if hasStatus then
                        (pySubscript actual_response "status".toList).map
                          (fun sv => jsonEqStr sv "Failed".toList)
                      else .ok false with
                    | .error e => (.error e, hist, rr, log)
                    | .ok isFailed =>
                      if isFailed then
                        match pySubscript actual_response "error".toList with
                        | .error e => (.error e, hist, rr, log)
                        | .ok ev =>
                          (.ok (some (.obj
                            [("status".toList, .str "Failed".toList),
                             ("error".toList, .str ("API request failed: ".toList ++ pyStr ev))])),
                           hist, rr, log)
                      else
                        match filter_json actual_response output_field with
                        | .error e => (.error e, hist, rr, log)
                        | .ok filtered =>
                          let content :=
                            match output_field with
                            | some f =>
                              match pySubscript filtered f with
                              | .ok v => v
                              | .error _ => filtered
                            | none => filtered
                          let hist := hist ++ [⟨"assistant".toList, content⟩]
                          let log := log ++ [.done hist]
                          if is_mission_done (env.doneText hist) then
                            (.ok (some (.obj
                              [("status".toList, .str "Passed".toList),
                               ("conversation_history".toList, histJson hist)])),
                             hist, rr, log)
                          else (.ok none, hist, rr, log)

/-- The `for turn in range(mission_duration)` loop of
`execute_test_mission` (worker/main.py 208-298): `remaining` counts the
turns still to run, `turn` the zero-based index of the current one, and
`tr` the `test_result` local (the empty mapping until some turn breaks).
The per-turn `except` clause turns any raised exception into a `Failed`
test result and breaks. -/
def missionLoop (env : MissionEnv) (request_tmpl : Json) (tracing_id : Str)
    (output_field : Option Str) :
    Nat → Nat → Json → List Turn → List Json → List JudgeCall →
    Json × List Turn × List Json × List JudgeCall
  | 0, _, tr, hist, rr, log => (tr, hist, rr, log)
  | remaining + 1, turn, tr, hist, rr, log =>
    match missionTurnBody env request_tmpl tracing_id output_field turn hist rr with
    | (.error e, hist', rr', callLog) =>
      (.obj [("status".toList, .str "Failed".toList),
             ("error".toList, .str (pyErrStr e))],
       hist', rr', log ++ callLog)
    | (.ok (some trFinal), hist', rr', callLog) =>
      (trFinal, hist', rr', log ++ callLog)
    | (.ok none, hist', rr', callLog) =>
      missionLoop env request_tmpl tracing_id output_field remaining (turn + 1)
        tr hist' rr' (log ++ callLog)

/-- The final record `execute_test_mission` builds (worker/main.py
308-320). The source stores `len(conversation_history) / 2` -- a Python
float -- under `"turns"`; the undivided length is recorded here. -/
structure MissionResult where
  historyLen : Nat
  conversation : List Turn
  assessment : Json
  payloads : List Json
  result : Json
  status : Json

/-- `execute_test_mission` (worker/main.py 189-320). The turn loop runs,
then `evaluate_mission` is applied to the accumulated history -- outside
any `try`, so a `TypeError` escaping it (brace-free judge output)
propagates to the orchestrator -- and `final_assessment["overall_success"]`
is read under a bare `except` that falls back to the status `"Failed"`.
Alongside the result, the full log of judge calls is returned. -/
def execute_test_mission (env : MissionEnv) (mission_duration : Nat)
    (request_tmpl : Json) (output_field : Option Str) (tracing_id : Str) :
    Except PyErr MissionResult × List JudgeCall :=
  let (test_result, hist, rr, log) :=
    missionLoop env request_tmpl tracing_id output_field mission_duration 0
      (.obj []) [] [] []
  let log := log ++ [.assess hist]
  match evaluate_mission (env.assessText hist) with
  | .error e => (.error e, log)
  | .ok final_assessment =>
    let status :=
      match pySubscript final_assessment "overall_success".toList with
      | .ok v => v
      | .error _ => Json.str "Failed".toList
    (.ok { historyLen := hist.length
           conversation := hist
           assessment := final_assessment
           payloads := rr
           result := test_result
           status := status }, log)

/-- The outcome of everything the orchestrator's per-case `try` dispatches
(pre-request hook, `execute_test_mission` or `execute_test_run`,
post-request hook): a result value, or an uncaught exception. -/
inductive CaseOutcome where
  | ok (result : Json)
  | exn (e : PyErr)

/-- The test result the orchestrator stores for case `i`: the dispatched
runner's result, or -- when the case's processing raised -- the
`{"status": "Failed", "error": str(e)}` fallback built by its `except`
clause. -/
def caseResult (dispatch : Nat → CaseOutcome) (i : Nat) : Json :=
  match dispatch i with
  | .ok r => r
  | .exn e => failedResult (pyErrStr e)

/-- The externally stored state the orchestrator reads and writes: the run
document's `status` and `progress` fields, and each test-case document's
`result` and `tracing_id` fields (index `i` standing for document
`test_case_{i+1}`). -/
structure RunStore where
  status : Str
  progress : Str
  results : List (Option Json)
  tracings : List (Option Str)
  end_time_set : Bool

/-- The `for i, test_case in enumerate(test_cases)` loop of
`execute_tests_and_store_results` (worker/main.py 458-500): every case,
whatever its outcome, gets its result and tracing id written exactly once
and bumps the persisted `progress` string. -/
def runCasesLoop (dispatch : Nat → CaseOutcome) (trace : Nat → Str)
    (num_tests : Nat) :
    List Json → Nat → Nat → RunStore → RunStore
  | [], _, _, store => store
  | _tc :: rest, i, num_completed, store =>
    let store := { store with
      results := store.results.set i (some (caseResult dispatch i))
      tracings := store.tracings.set i (some (trace i)) }
    let num_completed := num_completed + 1
    let store := { store with
      progress := natStr num_completed ++ "/".toList ++ natStr num_tests }
    runCasesLoop dispatch trace num_tests rest (i + 1) num_completed store

/-- `execute_tests_and_store_results(run_id, template_id)` from
worker/main.py 427-506. The document store is explicit: `run_data` is
what `run_ref.get().to_dict()` returned (`Json.null` when the run
document is missing), `test_cases` the streamed case documents, and
`store` the persisted state. `dispatch` and `trace` stand for the
per-case processing and `uuid4`. A falsy run document or template id is
the early no-op return; otherwise the run is marked `Running`, every case
is processed, and the run ends `Completed` with an end timestamp. -/
def execute_tests_and_store_results (dispatch : Nat → CaseOutcome)
    (trace : Nat → Str) (run_data : Json) (template_id : Option Str)
    (test_cases : List Json) (store : RunStore) : RunStore :=
  if !pyTruthy run_data then store
  else if (template_id.getD []).isEmpty then store
  else
    let store := { store with status := "Running".toList }
    let num_tests := test_cases.length
    let store := runCasesLoop dispatch trace num_tests test_cases 0 0 store
    { store with status := "Completed".toList, end_time_set := true }

example :
    (execute_tests_and_store_results
      (fun i => if i = 0 then .exn (.typeError "boom".toList)
                else .ok (.obj [("status".toList, .str "Passed".toList)]))
      (fun _ => "t".toList)
      (.obj [("template_type".toList, .str "Test Run".toList)])
      (some "tmpl1".toList)
      [.null, .null]
      { status := "Not Started".toList, progress := "0/2".toList,
        results := [none, none], tracings := [none, none],
        end_time_set := false }) =
      { status := "Completed".toList, progress := "2/2".toList,
        results := [some (failedResult "boom".toList),
                    some (.obj [("status".toList, .str "Passed".toList)])],
        tracings := [some "t".toList, some "t".toList],
        end_time_set := true } := by rfl

/-- A Python object for the heap model of in-place mutation: containers
hold the *addresses* of their children. -/
inductive HVal where
  | hnull
  | hbool (b : Bool)
  | hnum (n : Int)
  | hstr (s : Str)
  | hlist (elems : List Nat)
  | hdict (fields : List (Str × Nat))
deriving DecidableEq, Repr

/-- Lookup in an address map. -/
def getAddr (m : List (Nat × HVal)) (a : Nat) : Option HVal :=
  match m with
  | [] => none
  | (b, v) :: rest => if b = a then some v else getAddr rest a

/-- Update (or add) an address binding. -/
def setAddr (m : List (Nat × HVal)) (a : Nat) (v : HVal) :
    List (Nat × HVal) :=
  match m with
  | [] => [(a, v)]
  | (b, w) :: rest =>
    if b = a then (b, v) :: rest else (b, w) :: setAddr rest a v

/-- Update (or add) a field of a dict object, by address. -/
def setFieldN (fs : List (Str × Nat)) (key : Str) (a : Nat) :
    List (Str × Nat) :=
  match fs with
  | [] => [(key, a)]
  | (k, b) :: rest =>
    if k = key then (k, a) :: rest else (k, b) :: setFieldN rest key a

/-- Field lookup in a dict object, by address. -/
def lookupN (fs : List (Str × Nat)) (key : Str) : Option Nat :=
  match fs with
  | [] => none
  | (k, a) :: rest => if k = key then some a else lookupN rest key

/-- A heap of Python objects: an allocation counter and an address map. -/
structure Heap where
  next : Nat
  mem : List (Nat × HVal)

/-- Read an address. -/
def Heap.get (h : Heap) (a : Nat) : Option HVal := getAddr h.mem a

/-- Overwrite an address in place. -/
def Heap.set (h : Heap) (a : Nat) (v : HVal) : Heap :=
  { h with mem := setAddr h.mem a v }

/-- Allocate a fresh object, returning its address. -/
def Heap.alloc (h : Heap) (v : HVal) : Heap × Nat :=
  ({ next := h.next + 1, mem := (h.next, v) :: h.mem }, h.next)

/-- Every allocated address is below the allocation counter. -/
def Heap.wf (h : Heap) : Prop := ∀ p ∈ h.mem, p.1 < h.next

/-- Truthiness of a heap value (mirrors `pyTruthy`). -/
def hTruthy : HVal → Bool
  | .hnull => false
  | .hbool b => b
  | .hnum n => n != 0
  | .hstr s => !s.isEmpty
  | .hlist es => !es.isEmpty
  | .hdict fs => !fs.isEmpty

mutual

/-- `process_file_references` (worker/main.py 126-144) on the object heap:
a string with replacements becomes a *new* object (strings are immutable;
an unchanged string is returned as is), a dict is updated *in place* --
the returned address is the argument's -- and a list is rebuilt into a
*fresh* object whose elements are the processed children. `fuel` bounds
the recursion depth (Python diverges into its recursion limit on a cyclic
structure); `none` is recursion-limit exhaustion or a heap fault. -/
def pfrHeap (gcs : Str → Str) (filesPref : Str) :
    Nat → Heap → Nat → Option (Heap × Nat)
  | 0, _, _ => none
  | fuel + 1, h, a =>
    match h.get a with
    | some (.hstr s) =>
      if replace_file_reference_in_string gcs filesPref s == s then
        some (h, a)
      else
        some (h.alloc (.hstr (replace_file_reference_in_string gcs
          filesPref s)))
    | some (.hdict fields) =>
      match pfrFields gcs filesPref fuel h a fields with
      | some h2 => some (h2, a)
      | none => none
    | some (.hlist elems) =>
      match pfrItems gcs filesPref fuel h elems with
      | some (h2, addrs) => some (h2.alloc (.hlist addrs))
      | none => none
    | some _ => some (h, a)
    | none => none

/-- The `for key, value in data.items(): data[key] = ...` loop of
`process_file_references`: each processed value address is written back
into the dict at address `a`. -/
def pfrFields (gcs : Str → Str) (filesPref : Str) :
    Nat → Heap → Nat → List (Str × Nat) → Option Heap
  | 0, _, _, _ => none
  | fuel + 1, h, a, l =>
    match l with
    | [] => some h
    | (k, va) :: rest =>
      match pfrHeap gcs filesPref fuel h va with
      | some (h2, va2) =>
        match h2.get a with
        | some (.hdict cur) =>
          pfrFields gcs filesPref fuel
            (h2.set a (.hdict (setFieldN cur k va2))) a rest
        | _ => none
      | none => none

/-- The list-comprehension recursion of `process_file_references`:
children are processed left to right and their (possibly fresh) addresses
collected for the rebuilt list. -/
def pfrItems (gcs : Str → Str) (filesPref : Str) :
    Nat → Heap → List Nat → Option (Heap × List Nat)
  | 0, _, _ => none
  | fuel + 1, h, l =>
    match l with
    | [] => some (h, [])
    | e :: rest =>
      match pfrHeap gcs filesPref fuel h e with
      | some (h2, e2) =>
        match pfrItems gcs filesPref fuel h2 rest with
        | some (h3, rest2) => some (h3, e2 :: rest2)
        | none => none
      | none => none

end

/-- The mutation phase of `execute_request` (worker/main.py 74-85) on the
object heap: read the descriptor's fields; when a truthy tracing id is
present, write the `X-Litmus-Request` header into the *caller's* headers
mapping in place (`none` models the `TypeError` when `headers` is not a
mapping); then resolve file references in the body, rebinding only the
*local* `body` name to the returned address -- the descriptor's `body`
field keeps its original address. Returns the heap and the address the
local `body` ends at. -/
def execute_request_mut (gcs : Str → Str) (filesPref : Str) (fuel : Nat)
    (h0 : Heap) (rdAddr : Nat) : Option (Heap × Option Nat) :=
  match h0.get rdAddr with
  | some (.hdict fs) =>
    let headersA := lookupN fs "headers".toList
    let tracingA := lookupN fs "tracing_id".toList
    let bodyA := lookupN fs "body".toList
    let tracingTruthy :=
      match tracingA with
      | some ta =>
        match h0.get ta with
        | some v => hTruthy v
        | none => false
      | none => false
    let step1 : Option Heap :=
      if tracingTruthy then
        match headersA with
        | some ha =>
          match h0.get ha with
          | some (.hdict hfs) =>
            some (h0.set ha
              (.hdict (setFieldN hfs "X-Litmus-Request".toList (tracingA.getD 0))))
          | _ => none
        | none => none
      else some h0
    match step1 with
    | none => none
    | some h1 =>
      match bodyA with
      | none => some (h1, none)
      | some ba =>
        match pfrHeap gcs filesPref fuel h1 ba with
        | some (h2, ba2) => some (h2, some ba2)
        | none => none
  | _ => none

example :
    execute_request_mut (fun _ => "CONTENT".toList) [] 10
      { next := 4,
        mem := [(0, .hdict [("url".toList, 1), ("body".toList, 2)]),
                (1, .hstr "http://x".toList),
                (2, .hlist [3]),
                (3, .hstr "[FILE: f]".toList)] } 0 =
      some ({ next := 6,
              mem := [(5, .hlist [4]),
                      (4, .hstr "CONTENT".toList),
                      (0, .hdict [("url".toList, 1), ("body".toList, 2)]),
                      (1, .hstr "http://x".toList),
                      (2, .hlist [3]),
                      (3, .hstr "[FILE: f]".toList)] }, some 5) := by rfl

example :
    execute_request_mut (fun _ => "CONTENT".toList) [] 10
      { next := 5,
        mem := [(0, .hdict [("headers".toList, 1), ("tracing_id".toList, 2),
                            ("body".toList, 3)]),
                (1, .hdict []),
                (2, .hstr "tid".toList),
                (3, .hdict [("q".toList, 4)]),
                (4, .hstr "ask [FILE: f]".toList)] } 0 =
      some ({ next := 6,
              mem := [(5, .hstr "ask CONTENT".toList),
                      (0, .hdict [("headers".toList, 1), ("tracing_id".toList, 2),
                                  ("body".toList, 3)]),
                      (1, .hdict [("X-Litmus-Request".toList, 2)]),
                      (2, .hstr "tid".toList),
                      (3, .hdict [("q".toList, 5)]),
                      (4, .hstr "ask [FILE: f]".toList)] }, some 3) := by rfl

theorem splitOnChar_no_sep (sep : Char) :
    ∀ l : Str, l.contains sep = false → splitOnChar sep l = [l]
  | [], _ => rfl
  | c :: cs, h => by
    have h' : (sep == c) = false ∧ cs.contains sep = false := by
      simpa [List.contains_cons] using h
    have hc : ¬ c = sep := fun hcc => by simp [hcc] at h'
    have ih := splitOnChar_no_sep sep cs h'.2
    unfold splitOnChar
    rw [ih]
    simp [hc]

instance : Inhabited Json := ⟨.null⟩

theorem lookupField_isSome_of_any (key : Str) (fs : List (Str × Json)) :
    (fs.any (fun kv => kv.1 == key)) = true → ∃ v, lookupField fs key = some v := by
  induction fs with
  | nil => intro h; simp at h
  | cons kv rest ih =>
    intro h
    obtain ⟨k, v⟩ := kv
    by_cases hk : k = key
    · exact ⟨v, by simp [lookupField, hk]⟩
    · have hkb : (k == key) = false := beq_eq_false_iff_ne.mpr hk
      simp only [List.any_cons, hkb, Bool.false_or] at h
      obtain ⟨w, hw⟩ := ih h
      exact ⟨w, by simp [lookupField, hk, hw]⟩

theorem any_of_lookupField (key : Str) (fs : List (Str × Json)) (v : Json) :
    lookupField fs key = some v → (fs.any (fun kv => kv.1 == key)) = true := by
  induction fs with
  | nil => intro h; simp [lookupField] at h
  | cons kv rest ih =>
    intro h
    obtain ⟨k, w⟩ := kv
    by_cases hk : k = key
    · simp [List.any_cons, hk]
    · simp only [lookupField, if_neg hk] at h
      simp [List.any_cons, ih h]

theorem filterTraverse_single (data : Json) (p : Str) :
    filterTraverse data [p] =
      if data.isNull then .ok .null else filterStep data p := by
  by_cases hn : data.isNull = true
  · simp [filterTraverse, hn]
  · simp only [filterTraverse, hn, Bool.false_eq_true, if_false]
    cases hstep : filterStep data p with
    | error e => simp [bind, Except.bind, hstep]
    | ok v => simp [bind, Except.bind, hstep, filterTraverse]

theorem filter_json_single (data : Json) (p : Str) (hpe : p.isEmpty = false)
    (hc : p.contains ',' = false) :
    filter_json data (some p) =
      match filterTraverse data (splitOnChar '.' p) with
      | .error e => .error e
      | .ok cur =>
        if cur.isNull then .ok (.obj []) else .ok (.obj [(p, cur)]) := by
  simp only [filter_json, hpe, Bool.false_eq_true, if_false,
    splitOnChar_no_sep ',' p hc]
  cases htr : filterTraverse data (splitOnChar '.' p) with
  | error e => simp [filterLoop, htr, bind, Except.bind]
  | ok cur =>
    by_cases hcn : cur.isNull = true
    · simp [filterLoop, htr, bind, Except.bind, hcn, pure, Except.pure]
    · simp [filterLoop, htr, bind, Except.bind, hcn, dictInsert, pure,
        Except.pure]

/-- Claim C2: the code evaluated at the spec's scenario D input. A
bracketed index is compared against `len(current_data)` -- the length of
the **enclosing mapping** (its number of keys), not of the sequence under
the key -- so `a.b[1]` with a single-key mapping is dropped and the
filter returns the empty mapping instead of `{"a.b[1]": 20}`; `a.b[5]`
returns the empty mapping as the spec says, but for the same wrong
reason. -/
theorem c2_bracket_index_checks_parent_length :
    filter_json
        (.obj [("a".toList, .obj [("b".toList, .arr [.num 10, .num 20])])])
        (some "a.b[1]".toList) = .ok (.obj []) ∧
    filter_json
        (.obj [("a".toList, .obj [("b".toList, .arr [.num 10, .num 20])])])
        (some "a.b[5]".toList) = .ok (.obj []) :=
  ⟨rfl, rfl⟩

/-- Claim C9: `strip_references` evaluated at strings without any
citation. When the remaining text holds no `[`, the source appends
`statement[p:q]` with `q = find(...) = -1`, a slice that stops one short
of the end: every trailing segment loses its final character, so a string
with no `[` at all is *not* returned unchanged. -/
theorem c9_strip_references_drops_final_char :
    strip_references "abc".toList = "ab".toList ∧
    strip_references "see [3].".toList = "see ".toList :=
  ⟨rfl, rfl⟩

/-- Claim C8 (counterexample): filtering is not idempotent for the
two-segment spec key `a.b`: the first filter keys its result by the full
path string `"a.b"`, which the second traversal splits back into the
segments `a`, `b` and fails to resolve, yielding the empty mapping
instead of the same entry. -/
theorem c8_not_idempotent_counterexample :
    filter_json (.obj [("a".toList, .obj [("b".toList, .num 1)])])
        (some "a.b".toList) = .ok (.obj [("a.b".toList, .num 1)]) ∧
    filter_json (.obj [("a.b".toList, .num 1)]) (some "a.b".toList) =
      .ok (.obj []) :=
  ⟨rfl, rfl⟩

/-- Claim C8 (amended): idempotence holds for a single-segment spec key,
one containing no comma, dot or bracket. Whenever `filter(data, p)`
returns (rather than raises), filtering its result again with `p`
reproduces it exactly; in particular a resolving `p` reproduces the same
entry. -/
theorem c8_single_segment_idempotent (data : Json) (p : Str) (r : Json)
    (hc : p.contains ',' = false) (hd : p.contains '.' = false)
    (hb : p.contains '[' = false)
    (hok : filter_json data (some p) = .ok r) :
    filter_json r (some p) = .ok r := by
  by_cases hp : p = []
  · subst hp
    simp only [filter_json, List.isEmpty_nil, if_true]
  · have hpe : p.isEmpty = false := by
      cases p with
      | nil => exact absurd rfl hp
      | cons c cs => rfl
    have hdot := splitOnChar_no_sep '.' p hd
    have hcond : (p.contains '[' && p.contains ']') = false := by
      rw [hb]; exact Bool.false_and _
    have hmt : filterStep (Json.obj []) p = .ok .null := by
      simp only [filterStep, hcond, Bool.false_eq_true, if_false]
      rfl
    rw [filter_json_single data p hpe hc, hdot, filterTraverse_single] at hok
    rw [filter_json_single r p hpe hc, hdot, filterTraverse_single]
    have emptyGoal :
        (match
            (if (Json.obj ([] : List (Str × Json))).isNull = true then
              Except.ok Json.null
            else filterStep (Json.obj []) p) with
          | Except.error e => Except.error (α := Json) e
          | Except.ok cur =>
            if cur.isNull = true then Except.ok (Json.obj [])
            else Except.ok (Json.obj [(p, cur)])) =
          Except.ok (Json.obj []) := by
      show (match filterStep (Json.obj []) p with
        | Except.error e => Except.error (α := Json) e
        | Except.ok cur =>
          if cur.isNull = true then Except.ok (Json.obj [])
          else Except.ok (Json.obj [(p, cur)])) = Except.ok (Json.obj [])
      rw [hmt]
      rfl
    by_cases hnull : data.isNull = true
    · rw [if_pos hnull] at hok
      have hok2 : Except.ok (ε := PyErr) (Json.obj []) = Except.ok r := hok
      injection hok2 with hr
      subst hr
      exact emptyGoal
    · rw [if_neg hnull] at hok
      cases hstep : filterStep data p with
      | error e =>
        rw [hstep] at hok
        exact Except.noConfusion hok
      | ok cur =>
        rw [hstep] at hok
        by_cases hcn : cur.isNull = true
        · have hok2 : Except.ok (ε := PyErr) (Json.obj []) = Except.ok r := by
            rw [← hok]
            simp only [hcn, if_true]
          injection hok2 with hr
          subst hr
          exact emptyGoal
        · have hok2 : Except.ok (ε := PyErr) (Json.obj [(p, cur)]) =
              Except.ok r := by
            rw [← hok]
            simp only [hcn, Bool.false_eq_true, if_false]
          injection hok2 with hr
          subst hr
          have hstep2 : filterStep (Json.obj [(p, cur)]) p = .ok cur := by
            simp only [filterStep, hcond, Bool.false_eq_true, if_false,
              pyContains, List.any_cons, List.any_nil, beq_self_eq_true,
              Bool.true_or, bind, Except.bind, if_true, pySubscript,
              lookupField, if_pos rfl]
          show (match filterStep (Json.obj [(p, cur)]) p with
            | Except.error e => Except.error (α := Json) e
            | Except.ok cur =>
              if cur.isNull = true then Except.ok (Json.obj [])
              else Except.ok (Json.obj [(p, cur)])) =
              Except.ok (Json.obj [(p, cur)])
          rw [hstep2]
          show (if cur.isNull = true then Except.ok (ε := PyErr) (Json.obj [])
            else Except.ok (Json.obj [(p, cur)])) =
              Except.ok (Json.obj [(p, cur)])
          rw [if_neg hcn]

/-- Claim C8 (witness): the amended idempotence law applied to a concrete
single-segment key. -/
theorem c8_single_segment_idempotent_witness :
    filter_json (.obj [("a".toList, .num 7)]) (some "a".toList) =
      .ok (.obj [("a".toList, .num 7)]) :=
  c8_single_segment_idempotent (.obj [("a".toList, .num 7)]) "a".toList
    (.obj [("a".toList, .num 7)]) rfl rfl rfl rfl

theorem contains_false_iff_not_mem (l : Str) (c : Char) :
    l.contains c = false ↔ ¬ c ∈ l := by
  constructor
  · intro h hmem
    have he : l.elem c = true := List.elem_iff.mpr hmem
    have : l.contains c = true := he
    rw [h] at this
    cases this
  · intro h
    cases hc : l.contains c with
    | false => rfl
    | true => exact absurd (List.elem_iff.mp hc) h

theorem splitOnChar_ne_nil (sep : Char) : ∀ l : Str, splitOnChar sep l ≠ []
  | [] => by simp [splitOnChar]
  | c :: cs => by
    unfold splitOnChar
    cases hsp : splitOnChar sep cs with
    | nil => exact absurd hsp (splitOnChar_ne_nil sep cs)
    | cons p ps =>
      by_cases hc : c = sep <;> simp [hc]

theorem splitOnChar_cons (sep d : Char) (ds : Str) :
    splitOnChar sep (d :: ds) =
      match splitOnChar sep ds with
      | [] => if d = sep then [[], []] else [[d]]
      | p :: ps => if d = sep then [] :: p :: ps else (d :: p) :: ps := rfl

theorem splitOnChar_sub (sep : Char) :
    ∀ (l piece : Str), piece ∈ splitOnChar sep l → ∀ c ∈ piece, c ∈ l
  | [], piece, hp, c, hc => by
    simp [splitOnChar] at hp
    subst hp
    simp at hc
  | d :: ds, piece, hp, c, hc => by
    rw [splitOnChar_cons] at hp
    cases hsp : splitOnChar sep ds with
    | nil => exact absurd hsp (splitOnChar_ne_nil sep ds)
    | cons p ps =>
      rw [hsp] at hp
      change piece ∈ (if d = sep then [] :: p :: ps else (d :: p) :: ps) at hp
      by_cases hd : d = sep
      · rw [if_pos hd] at hp
        rcases List.mem_cons.mp hp with hpe | hpm
        · subst hpe; simp at hc
        · refine List.mem_cons_of_mem d
            (splitOnChar_sub sep ds piece ?_ c hc)
          rw [hsp]
          exact hpm
      · rw [if_neg hd] at hp
        rcases List.mem_cons.mp hp with hpe | hpm
        · subst hpe
          rcases List.mem_cons.mp hc with hce | hcm
          · subst hce; exact List.mem_cons_self c ds
          · refine List.mem_cons_of_mem d
              (splitOnChar_sub sep ds p ?_ c hcm)
            rw [hsp]
            exact List.mem_cons_self p ps
        · refine List.mem_cons_of_mem d
            (splitOnChar_sub sep ds piece ?_ c hc)
          rw [hsp]
          exact List.mem_cons_of_mem p hpm

/-- Shape condition for the amended claim C5: along a dot-only path, every
value entered while segments remain to be consumed is a mapping -- a
missing key or a `None` value merely ends the traversal early. -/
def safePath : Json → List Str → Bool
  | _, [] => true
  | data, key :: rest =>
    match data with
    | .null => true
    | .obj fs =>
      match lookupField fs key with
      | some v => safePath v rest
      | none => true
    | _ => false

theorem any_eq_false_of_lookupField_none (key : Str)
    (fs : List (Str × Json)) (h : lookupField fs key = none) :
    (fs.any (fun kv => kv.1 == key)) = false := by
  cases hany : fs.any (fun kv => kv.1 == key) with
  | false => rfl
  | true =>
    obtain ⟨v, hv⟩ := lookupField_isSome_of_any key fs hany
    rw [hv] at h
    cases h

theorem filterTraverse_null : ∀ keys : List Str,
    filterTraverse .null keys = .ok .null
  | [] => rfl
  | _ :: _ => by simp [filterTraverse, Json.isNull]

theorem filterTraverse_safe :
    ∀ (keys : List Str) (data : Json),
      (∀ k ∈ keys, k.contains '[' = false) → safePath data keys = true →
      ∃ v, filterTraverse data keys = .ok v
  | [], data, _, _ => ⟨data, rfl⟩
  | key :: rest, data, hk, hs => by
    cases data with
    | null => exact ⟨.null, filterTraverse_null _⟩
    | obj fs =>
      have hcond : (key.contains '[' && key.contains ']') = false := by
        rw [hk key (List.mem_cons_self key rest)]
        exact Bool.false_and _
      cases hlk : lookupField fs key with
      | some v =>
        have hany := any_of_lookupField key fs v hlk
        have hstep : filterStep (.obj fs) key = .ok v := by
          simp only [filterStep, hcond, Bool.false_eq_true, if_false,
            pyContains, bind, Except.bind, hany, if_true, pySubscript, hlk]
        have hs' : safePath v rest = true := by
          simpa [safePath, hlk] using hs
        obtain ⟨w, hw⟩ := filterTraverse_safe rest v
          (fun k hk2 => hk k (List.mem_cons_of_mem key hk2)) hs'
        exact ⟨w, by simp [filterTraverse, Json.isNull, hstep, bind,
          Except.bind, hw]⟩
      | none =>
        have hany := any_eq_false_of_lookupField_none key fs hlk
        have hstep : filterStep (.obj fs) key = .ok .null := by
          simp only [filterStep, hcond, Bool.false_eq_true, if_false,
            pyContains, bind, Except.bind, hany]
        exact ⟨.null, by simp [filterTraverse, Json.isNull, hstep, bind,
          Except.bind, filterTraverse_null]⟩
    | bool b => simp [safePath] at hs
    | num n => simp [safePath] at hs
    | str s => simp [safePath] at hs
    | arr xs => simp [safePath] at hs

/-- The value `filter_json` associates with one path of the spec: the
traversal's result when it resolves to a non-`None` value, nothing
otherwise. -/
def travOpt (data : Json) (path : Str) : Option Json :=
  match filterTraverse data (splitOnChar '.' path) with
  | .ok v => if v.isNull then none else some v
  | .error _ => none

theorem lookupField_dictInsert (k p : Str) (v : Json) :
    ∀ acc : List (Str × Json),
      lookupField (dictInsert acc k v) p =
        if p = k then some v else lookupField acc p
  | [] => by
    by_cases hpk : p = k
    · subst hpk
      simp [dictInsert, lookupField]
    · have hkp : ¬ k = p := fun h => hpk (Eq.symm h)
      simp [dictInsert, lookupField, hpk, hkp]
  | (k', w) :: rest => by
    by_cases hk' : k' = k
    · subst hk'
      by_cases hpk : p = k'
      · subst hpk
        simp [dictInsert, lookupField]
      · have hkp : ¬ k' = p := fun h => hpk (Eq.symm h)
        simp [dictInsert, lookupField, hpk, hkp]
    · by_cases hpk : p = k'
      · subst hpk
        have hpk2 : ¬ p = k := fun h => hk' h
        simp [dictInsert, lookupField, hk', hpk2]
      · have hkp : ¬ k' = p := fun h => hpk (Eq.symm h)
        simp [dictInsert, lookupField, hk', hkp,
          lookupField_dictInsert k p v rest]

theorem filterLoop_ok_lookup (data : Json) :
    ∀ (paths : List Str) (acc : List (Str × Json)),
      (∀ path ∈ paths, ∃ v,
        filterTraverse data (splitOnChar '.' path) = .ok v) →
      ∃ fields, filterLoop data paths acc = .ok fields ∧
        ∀ p : Str, lookupField fields p =
          (if p ∈ paths ∧ (travOpt data p).isSome = true then travOpt data p
           else lookupField acc p)
  | [], acc, _ => ⟨acc, rfl, fun p => by simp⟩
  | path :: rest, acc, h => by
    obtain ⟨cur, hcur⟩ := h path (List.mem_cons_self path rest)
    have hrest : ∀ q ∈ rest, ∃ v,
        filterTraverse data (splitOnChar '.' q) = .ok v :=
      fun q hq => h q (List.mem_cons_of_mem path hq)
    by_cases hnull : cur.isNull = true
    · have htro : travOpt data path = none := by
        simp [travOpt, hcur, hnull]
      obtain ⟨fields, hloop, hchar⟩ := filterLoop_ok_lookup data rest acc hrest
      refine ⟨fields, ?_, ?_⟩
      · simp [filterLoop, hcur, bind, Except.bind, hnull, hloop]
      · intro p
        rw [hchar p]
        by_cases hpp : p = path
        · subst hpp
          simp [htro]
        · simp [List.mem_cons, hpp]
    · have htro : travOpt data path = some cur := by
        simp [travOpt, hcur, hnull]
      obtain ⟨fields, hloop, hchar⟩ :=
        filterLoop_ok_lookup data rest (dictInsert acc path cur) hrest
      refine ⟨fields, ?_, ?_⟩
      · simp [filterLoop, hcur, bind, Except.bind, hnull, hloop]
      · intro p
        rw [hchar p, lookupField_dictInsert]
        by_cases hpp : p = path
        · subst hpp
          by_cases hmem : p ∈ rest
          · simp [htro, hmem]
          · simp [htro, hmem]
        · simp [List.mem_cons, hpp]

/-- Claim C5 (counterexample): the filter *can* raise on an out-of-range
bracketed index. With a sibling key making the enclosing mapping's length
pass the (misdirected) bound check, `a[1]` reaches `[10][1]` and raises
`IndexError` instead of silently dropping the path. -/
theorem c5_filter_raises_counterexample :
    filter_json (.obj [("a".toList, .arr [.num 10]), ("x".toList, .num 1)])
        (some "a[1]".toList) =
      .error (.indexError "list index out of range".toList) ∧
    filter_json (.obj [("a".toList, .num 5)]) (some "a.b".toList) =
      .error (.typeError "argument is not iterable".toList) :=
  ⟨rfl, rfl⟩

/-- Claim C5 (amended): for a non-empty spec whose paths are dot-only (no
brackets) and traverse only mappings or `None` before their final
segment, `filter` never raises; each path that ends at a missing key or a
`None` value is simply absent from the result, and every other path is
present with its traversal's value. -/
theorem c5_safe_paths_never_raise (data : Json) (fp : Str)
    (hfp : fp.isEmpty = false)
    (hsafe : ∀ path ∈ splitOnChar ',' fp, path.contains '[' = false ∧
      safePath data (splitOnChar '.' path) = true) :
    ∃ fields, filter_json data (some fp) = .ok (.obj fields) ∧
      ∀ path ∈ splitOnChar ',' fp,
        lookupField fields path = travOpt data path := by
  have htrav : ∀ path ∈ splitOnChar ',' fp, ∃ v,
      filterTraverse data (splitOnChar '.' path) = .ok v := by
    intro path hpath
    obtain ⟨hnb, hsp⟩ := hsafe path hpath
    refine filterTraverse_safe (splitOnChar '.' path) data ?_ hsp
    intro k hk
    rw [contains_false_iff_not_mem]
    intro hmemk
    exact (contains_false_iff_not_mem path '[').mp hnb
      (splitOnChar_sub '.' path k hk '[' hmemk)
  obtain ⟨fields, hloop, hchar⟩ :=
    filterLoop_ok_lookup data (splitOnChar ',' fp) [] htrav
  refine ⟨fields, ?_, ?_⟩
  · simp [filter_json, hfp, hloop, bind, Except.bind, pure, Except.pure]
  · intro path hpath
    rw [hchar path]
    by_cases hsome : (travOpt data path).isSome = true
    · simp [hpath, hsome]
    · simp only [hpath, true_and, hsome, Bool.false_eq_true, if_false,
        lookupField]
      cases htro : travOpt data path with
      | some v => rw [htro] at hsome; simp at hsome
      | none => rfl

/-- Claim C5 (witness): the amended safety law at a concrete input with
one resolving, one missing-key and one `None`-intermediate path. -/
theorem c5_safe_paths_never_raise_witness :
    ∃ fields,
      filter_json
          (.obj [("a".toList, .obj [("b".toList, .num 2)]),
                 ("n".toList, .null)])
          (some "a.b,a.c,n.x".toList) = .ok (.obj fields) ∧
        ∀ path ∈ splitOnChar ',' "a.b,a.c,n.x".toList,
          lookupField fields path =
            travOpt (.obj [("a".toList, .obj [("b".toList, .num 2)]),
                           ("n".toList, .null)]) path :=
  c5_safe_paths_never_raise _ _ rfl (by decide)

/-- The method value `execute_request` dispatches on for a mapping
descriptor: the `method` field, defaulting to `"POST"`. -/
def methodOf (fs : List (Str × Json)) : Json :=
  (lookupField fs "method".toList).getD (.str "POST".toList)

theorem execute_request_spec (net : HttpOutcome) (gcs : Str → Str)
    (filesPref : Str) (fs : List (Str × Json))
    (hhdr : pyTruthy ((lookupField fs "tracing_id".toList).getD .null) = true →
      ∃ hfs, (lookupField fs "headers".toList).getD .null = Json.obj hfs) :
    execute_request net gcs filesPref (.obj fs) =
      (if isVerb (methodOf fs) then
        match net with
        | .transportErr m => .ok (failedResult m, 0)
        | .resp s b =>
          if 400 ≤ s ∧ s < 600 then
            .ok (failedResult ("HTTP Error ".toList ++ natStr s), s)
          else
            match parseTop b with
            | some j => .ok (j, s)
            | none => .ok (failedResult "Expecting value".toList, s)
      else
        .ok (failedResult
          ("Unsupported HTTP method: ".toList ++ pyStr (methodOf fs)), 0)) := by
  simp only [execute_request, dictGet, dictGetD, bind, Except.bind, methodOf]
  by_cases ht : pyTruthy ((lookupField fs "tracing_id".toList).getD .null) = true
  · obtain ⟨hfs, hh⟩ := hhdr ht
    rw [if_pos ht, hh]
    simp only [pySetItem]
    by_cases hv : isVerb ((lookupField fs "method".toList).getD
        (.str "POST".toList)) = true
    · rw [if_pos hv, if_pos hv]
      cases net with
      | transportErr m => rfl
      | resp s b =>
        by_cases h45 : 400 ≤ s ∧ s < 600
        · simp only [if_pos h45]
          rfl
        · simp only [if_neg h45]
          cases parseTop b <;> rfl
    · rw [if_neg hv, if_neg hv]
      rfl
  · rw [if_neg ht]
    simp only [pure, Except.pure]
    by_cases hv : isVerb ((lookupField fs "method".toList).getD
        (.str "POST".toList)) = true
    · rw [if_pos hv, if_pos hv]
      cases net with
      | transportErr m => rfl
      | resp s b =>
        by_cases h45 : 400 ≤ s ∧ s < 600
        · simp only [if_pos h45]
          rfl
        · simp only [if_neg h45]
          cases parseTop b <;> rfl
    · rw [if_neg hv, if_neg hv]
      rfl

theorem execute_request_spec_transport (m : Str) (gcs : Str → Str)
    (filesPref : Str) (fs : List (Str × Json))
    (hhdr : pyTruthy ((lookupField fs "tracing_id".toList).getD .null) = true →
      ∃ hfs, (lookupField fs "headers".toList).getD .null = Json.obj hfs)
    (hv : isVerb (methodOf fs) = true) :
    execute_request (.transportErr m) gcs filesPref (.obj fs) =
      .ok (failedResult m, 0) := by
  rw [execute_request_spec _ gcs filesPref fs hhdr, if_pos hv]

theorem execute_request_spec_resp (s : Nat) (b : Str) (gcs : Str → Str)
    (filesPref : Str) (fs : List (Str × Json))
    (hhdr : pyTruthy ((lookupField fs "tracing_id".toList).getD .null) = true →
      ∃ hfs, (lookupField fs "headers".toList).getD .null = Json.obj hfs)
    (hv : isVerb (methodOf fs) = true) :
    execute_request (.resp s b) gcs filesPref (.obj fs) =
      (if 400 ≤ s ∧ s < 600 then
        .ok (failedResult ("HTTP Error ".toList ++ natStr s), s)
      else
        match parseTop b with
        | some j => .ok (j, s)
        | none => .ok (failedResult "Expecting value".toList, s)) := by
  rw [execute_request_spec _ gcs filesPref fs hhdr, if_pos hv]

theorem execute_request_spec_badmethod (net : HttpOutcome) (gcs : Str → Str)
    (filesPref : Str) (fs : List (Str × Json))
    (hhdr : pyTruthy ((lookupField fs "tracing_id".toList).getD .null) = true →
      ∃ hfs, (lookupField fs "headers".toList).getD .null = Json.obj hfs)
    (hv : ¬ isVerb (methodOf fs) = true) :
    execute_request net gcs filesPref (.obj fs) =
      .ok (failedResult
        ("Unsupported HTTP method: ".toList ++ pyStr (methodOf fs)), 0) := by
  rw [execute_request_spec net gcs filesPref fs hhdr, if_neg hv]

/-- Claim C3 (counterexample): a `304 Not Modified` response is not 2xx,
yet `raise_for_status` raises only for 4xx/5xx, so `execute_request`
returns the parsed body as a *success* value with status 304 instead of
the claimed `{"status": "Failed", ...}`. -/
theorem c3_non2xx_not_failed_counterexample :
    execute_request (.resp 304 "\x7b\x7d".toList) (fun _ => []) []
        (.obj [("url".toList, .str "http://u".toList)]) =
      .ok (.obj [], 304) := rfl

/-- Claim C3 (amended): for a mapping descriptor whose `headers` value is
a mapping whenever a truthy tracing id is present, `execute_request`
always returns a `(result, statusCode)` pair and never raises for network
failures: a dispatched transport failure yields
`{"status": "Failed", ...}` with status 0, a dispatched 4xx/5xx response
yields `{"status": "Failed", ...}` carrying the observed status, and the
status is 0 exactly when no response was received (transport failure, or
no dispatch because the method is unsupported). -/
theorem c3_execute_request_total (net : HttpOutcome) (gcs : Str → Str)
    (filesPref : Str) (fs : List (Str × Json))
    (hhdr : pyTruthy ((lookupField fs "tracing_id".toList).getD .null) = true →
      ∃ hfs, (lookupField fs "headers".toList).getD .null = Json.obj hfs)
    (hstatus : ∀ s b, net = .resp s b → 0 < s) :
    ∃ result code,
      execute_request net gcs filesPref (.obj fs) = .ok (result, code) ∧
      (∀ m, net = .transportErr m → isVerb (methodOf fs) = true →
        result = failedResult m ∧ code = 0) ∧
      (∀ s b, net = .resp s b → 400 ≤ s → s < 600 →
        isVerb (methodOf fs) = true →
        result = failedResult ("HTTP Error ".toList ++ natStr s) ∧ code = s) ∧
      (code = 0 ↔ (isVerb (methodOf fs) = false ∨
        ∃ m, net = .transportErr m)) := by
  by_cases hv : isVerb (methodOf fs) = true
  · cases net with
    | transportErr m =>
      refine ⟨failedResult m, 0,
        execute_request_spec_transport m gcs filesPref fs hhdr hv, ?_, ?_, ?_⟩
      · intro m' hm _
        injection hm with hm'
        subst hm'
        exact ⟨rfl, rfl⟩
      · intro s b hsb
        cases hsb
      · exact ⟨fun _ => Or.inr ⟨m, rfl⟩, fun _ => rfl⟩
    | resp s b =>
      have hs0 : 0 < s := hstatus s b rfl
      have hspec := execute_request_spec_resp s b gcs filesPref fs hhdr hv
      have hiff : (s = 0 ↔ (isVerb (methodOf fs) = false ∨
          ∃ m, HttpOutcome.resp s b = .transportErr m)) := by
        constructor
        · intro h
          omega
        · intro h
          rcases h with h | ⟨m, hm⟩
          · rw [hv] at h
            cases h
          · cases hm
      by_cases h45 : 400 ≤ s ∧ s < 600
      · rw [if_pos h45] at hspec
        refine ⟨failedResult ("HTTP Error ".toList ++ natStr s), s, hspec,
          ?_, ?_, hiff⟩
        · intro m hm
          cases hm
        · intro s' b' hsb _ _ _
          injection hsb with h1 _
          subst h1
          exact ⟨rfl, rfl⟩
      · rw [if_neg h45] at hspec
        cases hp : parseTop b with
        | some j =>
          rw [hp] at hspec
          refine ⟨j, s, hspec, ?_, ?_, hiff⟩
          · intro m hm
            cases hm
          · intro s' b' hsb h400 h600 _
            injection hsb with h1 h2
            subst h1
            subst h2
            exact absurd ⟨h400, h600⟩ h45
        | none =>
          rw [hp] at hspec
          refine ⟨failedResult "Expecting value".toList, s, hspec,
            ?_, ?_, hiff⟩
          · intro m hm
            cases hm
          · intro s' b' hsb h400 h600 _
            injection hsb with h1 h2
            subst h1
            subst h2
            exact absurd ⟨h400, h600⟩ h45
  · refine ⟨failedResult
      ("Unsupported HTTP method: ".toList ++ pyStr (methodOf fs)), 0,
      execute_request_spec_badmethod net gcs filesPref fs hhdr hv, ?_, ?_, ?_⟩
    · intro m hm hverb
      exact absurd hverb hv
    · intro s b hsb h400 h600 hverb
      exact absurd hverb hv
    · exact ⟨fun _ => Or.inl (Bool.eq_false_iff.mpr hv), fun _ => rfl⟩

/-- Claim C3 (witness): the amended contract applied to a concrete
transport failure on a plain POST descriptor. -/
theorem c3_execute_request_total_witness :
    ∃ result code,
      execute_request (.transportErr "connection refused".toList)
          (fun _ => []) [] (.obj [("url".toList, .str "http://u".toList)]) =
        .ok (result, code) ∧
      (∀ m, HttpOutcome.transportErr "connection refused".toList =
          .transportErr m →
        isVerb (methodOf [("url".toList, .str "http://u".toList)]) = true →
        result = failedResult m ∧ code = 0) ∧
      (∀ s b, HttpOutcome.transportErr "connection refused".toList =
          .resp s b → 400 ≤ s → s < 600 →
        isVerb (methodOf [("url".toList, .str "http://u".toList)]) = true →
        result = failedResult ("HTTP Error ".toList ++ natStr s) ∧ code = s) ∧
      (code = 0 ↔
        (isVerb (methodOf [("url".toList, .str "http://u".toList)]) = false ∨
          ∃ m, HttpOutcome.transportErr "connection refused".toList =
            .transportErr m)) :=
  c3_execute_request_total _ _ _ _
    (by intro h; simp [lookupField, pyTruthy] at h)
    (by intro s b h; cases h)

/-- Claim C4 (counterexample): a 2xx response whose body is not JSON does
*not* fall back to the raw response text: `response.json()` raises inside
the `try`, the decode error is caught like a request failure, and the
result is `{"status": "Failed", ...}` with the real 2xx status code. The
raw-text fallback exists only in `log_request_and_response`. -/
theorem c4_no_raw_text_fallback_counterexample :
    execute_request (.resp 200 "I am not JSON".toList) (fun _ => []) []
        (.obj [("url".toList, .str "http://u".toList)]) =
      .ok (failedResult "Expecting value".toList, 200) := rfl

/-- Claim C4 (amended): on a successful (2xx) call of a dispatchable
descriptor, `execute_request` returns the body parsed as JSON with the
real status code; when the body does not parse, the decode error is
caught and the result is `{"status": "Failed", ...}`, still carrying the
real 2xx status code. -/
theorem c4_success_parses_json (gcs : Str → Str) (filesPref : Str)
    (fs : List (Str × Json)) (s : Nat) (b : Str)
    (hhdr : pyTruthy ((lookupField fs "tracing_id".toList).getD .null) = true →
      ∃ hfs, (lookupField fs "headers".toList).getD .null = Json.obj hfs)
    (hv : isVerb (methodOf fs) = true) (h2xx : 200 ≤ s ∧ s < 300) :
    (∀ j, parseTop b = some j →
      execute_request (.resp s b) gcs filesPref (.obj fs) = .ok (j, s)) ∧
    (parseTop b = none →
      execute_request (.resp s b) gcs filesPref (.obj fs) =
        .ok (failedResult "Expecting value".toList, s)) := by
  have hspec := execute_request_spec_resp s b gcs filesPref fs hhdr hv
  rw [if_neg (by omega : ¬ (400 ≤ s ∧ s < 600))] at hspec
  constructor
  · intro j hj
    rw [hj] at hspec
    exact hspec
  · intro hj
    rw [hj] at hspec
    exact hspec

/-- Claim C4 (witness): the amended 2xx contract at a concrete JSON body
(status 200). -/
theorem c4_success_parses_json_witness :
    (∀ j, parseTop "\x7b\"a\": 1\x7d".toList = some j →
      execute_request (.resp 200 "\x7b\"a\": 1\x7d".toList) (fun _ => []) []
          (.obj [("url".toList, .str "http://u".toList)]) = .ok (j, 200)) ∧
    (parseTop "\x7b\"a\": 1\x7d".toList = none →
      execute_request (.resp 200 "\x7b\"a\": 1\x7d".toList) (fun _ => []) []
          (.obj [("url".toList, .str "http://u".toList)]) =
        .ok (failedResult "Expecting value".toList, 200)) :=
  c4_success_parses_json _ _ _ 200 _
    (by intro h; simp [lookupField, pyTruthy] at h)
    rfl (by omega)

theorem missionTurnBody_invalid (env : MissionEnv) (rtmpl : Json) (tid : Str)
    (ofld : Option Str) (turn : Nat) (hist : List Turn) (rr : List Json)
    (v : Json) (hask : ask_llm_for_action (env.actionText hist) = .ok v)
    (hinv : pyTruthy v = false ∨
      ∃ fs, v = .obj fs ∧ lookupField fs "request".toList = none) :
    missionTurnBody env rtmpl tid ofld turn hist rr =
      (.ok (some (invalidActionResult turn)), hist, rr, [.action hist]) := by
  simp only [missionTurnBody, hask]
  rcases hinv with hfalse | ⟨fs, rfl, hnone⟩
  · simp [hfalse]
  · by_cases ht : pyTruthy (.obj fs) = true
    · have hreq : pyContains (Json.obj fs) "request".toList = .ok false := by
        simp only [pyContains, any_eq_false_of_lookupField_none _ _ hnone]
      simp only [ht, Bool.not_true, Bool.false_eq_true, if_false, hreq,
        Bool.not_false, if_true]
    · simp [Bool.eq_false_iff.mpr ht]

/-- Claim C7 (counterexample): on judge output with no brace-delimited
substring at all, `cleanup_json` returns `None`, `json.loads(None)`
raises `TypeError` -- not the caught `json.JSONDecodeError` -- and
`ask_llm_for_action` raises instead of returning null. -/
theorem c7_no_braces_raises_counterexample :
    ask_llm_for_action "Sorry, I cannot help with that.".toList =
      .error (.typeError
        "the JSON object must be str, not NoneType".toList) := rfl

/-- Claim C7 (amended): `ask_llm_for_action` returns null exactly when the
brace-delimited substring of the judge's output fails to parse as JSON;
when the output contains no braces it instead raises `TypeError` (which
the mission turn's handler then turns into a `Failed`, not `Error`,
result). The mission runner does treat a null -- or truthy but
request-less -- action by ending the mission immediately on that turn
with the `Invalid LLM action` `Error` result, leaving history, payloads
and the judge-call log otherwise untouched. -/
theorem c7_null_action_aborts_mission :
    (∀ t s, cleanup_json t = some s → parseTop s = none →
      ask_llm_for_action t = .ok .null) ∧
    (∀ t, cleanup_json t = none →
      ask_llm_for_action t = .error (.typeError
        "the JSON object must be str, not NoneType".toList)) ∧
    (∀ (env : MissionEnv) (rtmpl : Json) (tid : Str) (ofld : Option Str)
        (rem turn : Nat) (tr : Json) (hist : List Turn) (rr : List Json)
        (log : List JudgeCall) (v : Json),
      ask_llm_for_action (env.actionText hist) = .ok v →
      (pyTruthy v = false ∨
        ∃ fs, v = .obj fs ∧ lookupField fs "request".toList = none) →
      missionLoop env rtmpl tid ofld (rem + 1) turn tr hist rr log =
        (invalidActionResult turn, hist, rr, log ++ [.action hist])) := by
  refine ⟨?_, ?_, ?_⟩
  · intro t s hcl hpt
    simp [ask_llm_for_action, json_loads, hcl, hpt]
  · intro t hcl
    simp [ask_llm_for_action, json_loads, hcl]
  · intro env rtmpl tid ofld rem turn tr hist rr log v hask hinv
    have hbody := missionTurnBody_invalid env rtmpl tid ofld turn hist rr v
      hask hinv
    simp only [missionLoop, hbody]

/-- Claim C7 (witness): the amended behaviour at concrete judge outputs --
an unparseable braced output (null returned), a brace-free output
(`TypeError` raised), and a mission whose judge proposes nothing, aborted
on turn 1 with the `Error` result. -/
theorem c7_null_action_aborts_mission_witness :
    ask_llm_for_action "\x7bbroken\x7d".toList = .ok .null ∧
    ask_llm_for_action "nope".toList =
      .error (.typeError
        "the JSON object must be str, not NoneType".toList) ∧
    missionLoop
        ⟨fun _ => "\x7bbroken\x7d".toList, fun _ => [], fun _ => [],
         fun _ => .resp 200 [], fun s => s, []⟩ .null [] none 1 0 (.obj [])
        [] [] [] =
      (invalidActionResult 0, [], [], [.action []]) := by
  have h := c7_null_action_aborts_mission
  refine ⟨h.1 "\x7bbroken\x7d".toList "\x7bbroken\x7d".toList rfl rfl,
    ?_, ?_⟩
  · exact h.2.1 "nope".toList rfl
  · exact h.2.2
      ⟨fun _ => "\x7bbroken\x7d".toList, fun _ => [], fun _ => [],
       fun _ => .resp 200 [], fun s => s, []⟩ .null [] none 0 0 (.obj [])
      [] [] [] .null rfl (Or.inl rfl)

theorem missionTurnBody_log_no_assess (env : MissionEnv) (rtmpl : Json)
    (tid : Str) (ofld : Option Str) (turn : Nat) (hist : List Turn)
    (rr : List Json) :
    ((missionTurnBody env rtmpl tid ofld turn hist rr).2.2.2).filter
        JudgeCall.isAssess = [] := by
  unfold missionTurnBody
  repeat' split
  all_goals try (first
    | rfl
    | simp only [List.filter_append, List.filter_cons, List.filter_nil,
        JudgeCall.isAssess, if_false, Bool.false_eq_true, List.nil_append])
  all_goals repeat' split
  all_goals rfl

theorem missionLoop_log_no_assess (env : MissionEnv) (rtmpl : Json)
    (tid : Str) (ofld : Option Str) :
    ∀ (remaining turn : Nat) (tr : Json) (hist : List Turn) (rr : List Json)
      (log : List JudgeCall),
      ((missionLoop env rtmpl tid ofld remaining turn tr hist rr
          log).2.2.2).filter JudgeCall.isAssess =
        log.filter JudgeCall.isAssess := by
  intro remaining
  induction remaining with
  | zero => intro turn tr hist rr log; rfl
  | succ rem ih =>
    intro turn tr hist rr log
    have hclog := missionTurnBody_log_no_assess env rtmpl tid ofld turn hist rr
    rcases hmt : missionTurnBody env rtmpl tid ofld turn hist rr with
      ⟨out, hist2, rr2, clog⟩
    rw [hmt] at hclog
    simp only at hclog
    unfold missionLoop
    rw [hmt]
    rcases out with e | o
    · simp [List.filter_append, hclog]
    · rcases o with _ | tr2
      · rw [ih]
        simp [List.filter_append, hclog]
      · simp [List.filter_append, hclog]

/-- Claim C6: however the turn loop ends -- a `Passed`/`Error`/`Failed`
break or budget exhaustion -- `evaluate_mission` is invoked exactly once,
on the accumulated conversation history, and its verdict's
`overall_success` becomes the mission's status, falling back to `Failed`
when that key cannot be read (the shape `evaluate_mission` returns on
unparseable judge output); when the assessment raises instead (brace-free
judge output), the exception is exactly what `execute_test_mission`
propagates to the orchestrator's per-case handler. -/
theorem c6_assess_called_exactly_once (env : MissionEnv)
    (mission_duration : Nat) (rtmpl : Json) (ofld : Option Str) (tid : Str) :
    ∃ hist,
      ((execute_test_mission env mission_duration rtmpl ofld tid).2).filter
          JudgeCall.isAssess = [.assess hist] ∧
      (∀ r, (execute_test_mission env mission_duration rtmpl ofld tid).1 =
          .ok r →
        r.conversation = hist ∧
        evaluate_mission (env.assessText hist) = .ok r.assessment ∧
        (∀ v, pySubscript r.assessment "overall_success".toList = .ok v →
          r.status = v) ∧
        (∀ e, pySubscript r.assessment "overall_success".toList = .error e →
          r.status = .str "Failed".toList)) ∧
      (∀ e, (execute_test_mission env mission_duration rtmpl ofld tid).1 =
          .error e →
        evaluate_mission (env.assessText hist) = .error e) := by
  have hlog := missionLoop_log_no_assess env rtmpl tid ofld mission_duration 0
    (.obj []) [] [] []
  rcases hml : missionLoop env rtmpl tid ofld mission_duration 0 (.obj [])
      [] [] [] with ⟨tres, hist, rr, log⟩
  rw [hml] at hlog
  simp only [List.filter_nil] at hlog
  refine ⟨hist, ?_⟩
  have hexe : execute_test_mission env mission_duration rtmpl ofld tid =
      (match evaluate_mission (env.assessText hist) with
       | .error e => (.error e, log ++ [.assess hist])
       | .ok fa =>
         (.ok { historyLen := hist.length, conversation := hist,
                assessment := fa, payloads := rr, result := tres,
                status :=
                  match pySubscript fa "overall_success".toList with
                  | .ok v => v
                  | .error _ => .str "Failed".toList },
          log ++ [.assess hist])) := by
    simp only [execute_test_mission, hml]
  cases hev : evaluate_mission (env.assessText hist) with
  | error e =>
    rw [hev] at hexe
    refine ⟨?_, ?_, ?_⟩
    · rw [hexe]
      simp [List.filter_append, hlog, JudgeCall.isAssess]
    · intro r hr
      rw [hexe] at hr
      cases hr
    · intro e' he'
      rw [hexe] at he'
      injection he' with he''
      rw [← he'']
  | ok fa =>
    rw [hev] at hexe
    refine ⟨?_, ?_, ?_⟩
    · rw [hexe]
      simp [List.filter_append, hlog, JudgeCall.isAssess]
    · intro r hr
      rw [hexe] at hr
      simp only at hr
      injection hr with hr'
      subst hr'
      refine ⟨rfl, rfl, ?_, ?_⟩
      · intro v hv
        simp only [hv]
      · intro e he
        simp only [he]
    · intro e he
      rw [hexe] at he
      cases he

/-- Claim C6 (witness): the contract at a concrete mission of budget 1
whose judge proposes a request, whose transport succeeds, and whose
assessment parses with `overall_success` present. -/
theorem c6_assess_called_exactly_once_witness :
    ∃ hist,
      ((execute_test_mission
          ⟨fun _ => "\x7b\"request\": \"hi\"\x7d".toList,
           fun _ => "yes".toList,
           fun _ => "\x7b\"overall_success\": \"Successful\"\x7d".toList,
           fun _ => .resp 200 "\x7b\"answer\": \"ok\"\x7d".toList,
           fun s => s, []⟩ 1
          (.obj [("url".toList, .str "http://u".toList)])
          (some "answer".toList) "t1".toList).2).filter
          JudgeCall.isAssess = [.assess hist] ∧
      (∀ r, (execute_test_mission
          ⟨fun _ => "\x7b\"request\": \"hi\"\x7d".toList,
           fun _ => "yes".toList,
           fun _ => "\x7b\"overall_success\": \"Successful\"\x7d".toList,
           fun _ => .resp 200 "\x7b\"answer\": \"ok\"\x7d".toList,
           fun s => s, []⟩ 1
          (.obj [("url".toList, .str "http://u".toList)])
          (some "answer".toList) "t1".toList).1 = .ok r →
        r.conversation = hist ∧
        evaluate_mission
            "\x7b\"overall_success\": \"Successful\"\x7d".toList =
          .ok r.assessment ∧
        (∀ v, pySubscript r.assessment "overall_success".toList = .ok v →
          r.status = v) ∧
        (∀ e, pySubscript r.assessment "overall_success".toList = .error e →
          r.status = .str "Failed".toList)) ∧
      (∀ e, (execute_test_mission
          ⟨fun _ => "\x7b\"request\": \"hi\"\x7d".toList,
           fun _ => "yes".toList,
           fun _ => "\x7b\"overall_success\": \"Successful\"\x7d".toList,
           fun _ => .resp 200 "\x7b\"answer\": \"ok\"\x7d".toList,
           fun s => s, []⟩ 1
          (.obj [("url".toList, .str "http://u".toList)])
          (some "answer".toList) "t1".toList).1 = .error e →
        evaluate_mission
            "\x7b\"overall_success\": \"Successful\"\x7d".toList =
          .error e) :=
  c6_assess_called_exactly_once
    ⟨fun _ => "\x7b\"request\": \"hi\"\x7d".toList,
     fun _ => "yes".toList,
     fun _ => "\x7b\"overall_success\": \"Successful\"\x7d".toList,
     fun _ => .resp 200 "\x7b\"answer\": \"ok\"\x7d".toList,
     fun s => s, []⟩ 1
    (.obj [("url".toList, .str "http://u".toList)])
    (some "answer".toList) "t1".toList

theorem runCasesLoop_spec (dispatch : Nat → CaseOutcome) (trace : Nat → Str)
    (num_tests : Nat) :
    ∀ (cs : List Json) (i done : Nat) (store : RunStore),
      (runCasesLoop dispatch trace num_tests cs i done store).status =
          store.status ∧
      (runCasesLoop dispatch trace num_tests cs i done store).end_time_set =
          store.end_time_set ∧
      (runCasesLoop dispatch trace num_tests cs i done store).results.length =
          store.results.length ∧
      (runCasesLoop dispatch trace num_tests cs i done store).progress =
        (if cs.isEmpty then store.progress
         else natStr (done + cs.length) ++ "/".toList ++ natStr num_tests) ∧
      (∀ j, j < i →
        (runCasesLoop dispatch trace num_tests cs i done store).results[j]? =
          store.results[j]?) ∧
      (∀ k, k < cs.length → i + k < store.results.length →
        (runCasesLoop dispatch trace num_tests cs i done
            store).results[i + k]? =
          some (some (caseResult dispatch (i + k))))
  | [], i, done, store => by
    exact ⟨rfl, rfl, rfl, rfl, fun j _ => rfl,
      fun k hk _ => by simp at hk⟩
  | tc :: rest, i, done, store => by
    have hstep : runCasesLoop dispatch trace num_tests (tc :: rest) i done
        store =
        runCasesLoop dispatch trace num_tests rest (i + 1) (done + 1)
          { status := store.status,
            progress := natStr (done + 1) ++ "/".toList ++ natStr num_tests,
            results := store.results.set i (some (caseResult dispatch i)),
            tracings := store.tracings.set i (some (trace i)),
            end_time_set := store.end_time_set } := rfl
    have IH := runCasesLoop_spec dispatch trace num_tests rest (i + 1)
      (done + 1)
      { status := store.status,
        progress := natStr (done + 1) ++ "/".toList ++ natStr num_tests,
        results := store.results.set i (some (caseResult dispatch i)),
        tracings := store.tracings.set i (some (trace i)),
        end_time_set := store.end_time_set }
    refine ⟨?_, ?_, ?_, ?_, ?_, ?_⟩
    · rw [hstep]
      exact IH.1
    · rw [hstep]
      exact IH.2.1
    · rw [hstep, IH.2.2.1]
      exact List.length_set store.results i _
    · rw [hstep, IH.2.2.2.1]
      simp only [List.isEmpty_cons, Bool.false_eq_true, if_false,
        List.length_cons]
      rcases rest with _ | ⟨r0, rs⟩
      · simp
      · simp only [List.isEmpty_cons, Bool.false_eq_true, if_false,
          List.length_cons]
        have harith : done + 1 + (rs.length + 1) = done + (rs.length + 1 + 1) :=
          by omega
        rw [harith]
    · intro j hj
      rw [hstep, IH.2.2.2.2.1 j (by omega)]
      exact List.getElem?_set_ne (by omega)
    · intro k hk hbound
      cases k with
      | zero =>
        rw [hstep]
        have hij := IH.2.2.2.2.1 i (by omega)
        simp only [Nat.add_zero] at hbound ⊢
        rw [hij]
        exact List.getElem?_set_self (by omega)
      | succ k' =>
        rw [hstep]
        have hk' : k' < rest.length := by
          simp only [List.length_cons] at hk
          omega
        have hb' : (i + 1) + k' <
            (store.results.set i (some (caseResult dispatch i))).length := by
          simp only [List.length_set]
          omega
        have := IH.2.2.2.2.2 k' hk' hb'
        have harith : i + (k' + 1) = (i + 1) + k' := by omega
        rw [harith]
        exact this

/-- Claim C1: with the run document present (truthy) and a truthy template
id, after `execute_tests_and_store_results` returns, the run's status is
`Completed` and its progress string is `N/N` (for `N = 0` the submission
already stored `0/0`, which the hypothesis on the initial progress
records); every one of the `N` cases has had its result written, and a
case whose processing raised has the exception converted into
`{"status": "Failed", "error": str(e)}` for that case only -- every other
case still carries its own dispatched outcome. -/
theorem c1_run_completes_all_cases (dispatch : Nat → CaseOutcome)
    (trace : Nat → Str) (run_data : Json) (template_id : Option Str)
    (test_cases : List Json) (store : RunStore)
    (hrun : pyTruthy run_data = true)
    (htid : (template_id.getD []).isEmpty = false)
    (hlen : store.results.length = test_cases.length)
    (hprog : store.progress = "0/".toList ++ natStr test_cases.length) :
    (execute_tests_and_store_results dispatch trace run_data template_id
        test_cases store).status = "Completed".toList ∧
    (execute_tests_and_store_results dispatch trace run_data template_id
        test_cases store).progress =
      natStr test_cases.length ++ "/".toList ++ natStr test_cases.length ∧
    (∀ i, i < test_cases.length →
      (execute_tests_and_store_results dispatch trace run_data template_id
          test_cases store).results[i]? =
        some (some (caseResult dispatch i))) ∧
    (∀ i e, i < test_cases.length → dispatch i = .exn e →
      (execute_tests_and_store_results dispatch trace run_data template_id
          test_cases store).results[i]? =
        some (some (failedResult (pyErrStr e)))) := by
  have hexe : execute_tests_and_store_results dispatch trace run_data
      template_id test_cases store =
      { runCasesLoop dispatch trace test_cases.length test_cases 0 0
          { store with status := "Running".toList } with
        status := "Completed".toList, end_time_set := true } := by
    simp only [execute_tests_and_store_results, hrun, Bool.not_true,
      Bool.false_eq_true, if_false, htid]
  have hspec := runCasesLoop_spec dispatch trace test_cases.length test_cases
    0 0 { store with status := "Running".toList }
  have hres : ∀ i, i < test_cases.length →
      (execute_tests_and_store_results dispatch trace run_data template_id
          test_cases store).results[i]? =
        some (some (caseResult dispatch i)) := by
    intro i hi
    rw [hexe]
    show (runCasesLoop dispatch trace test_cases.length test_cases 0 0
      { store with status := "Running".toList }).results[i]? =
      some (some (caseResult dispatch i))
    have hb : 0 + i <
        ({ store with status := "Running".toList } : RunStore).results.length := by
      show 0 + i < store.results.length
      rw [hlen]
      omega
    have := hspec.2.2.2.2.2 i (by omega) hb
    simpa using this
  refine ⟨?_, ?_, hres, ?_⟩
  · rw [hexe]
  · rw [hexe]
    show (runCasesLoop dispatch trace test_cases.length test_cases 0 0
      { store with status := "Running".toList }).progress =
      natStr test_cases.length ++ "/".toList ++ natStr test_cases.length
    rw [hspec.2.2.2.1]
    by_cases hemp : test_cases.isEmpty = true
    · rw [if_pos hemp]
      have hnil := List.isEmpty_iff.mp hemp
      show store.progress = _
      rw [hprog, hnil]
      decide
    · rw [if_neg hemp]
      rw [Nat.zero_add]
  · intro i e hi he
    rw [hres i hi]
    have : caseResult dispatch i = failedResult (pyErrStr e) := by
      simp [caseResult, he]
    rw [this]

/-- Claim C1 (witness): a concrete two-case run whose first case raises
and whose second succeeds: status ends `Completed`, progress `2/2`, the
raising case is stored as `{"status": "Failed", ...}` and the other keeps
its own result. -/
theorem c1_run_completes_all_cases_witness :
    (execute_tests_and_store_results
        (fun i => if i = 0 then .exn (.typeError "boom".toList)
                  else .ok (.obj [("status".toList, .str "Passed".toList)]))
        (fun _ => "t".toList)
        (.obj [("template_type".toList, .str "Test Run".toList)])
        (some "tmpl1".toList) [.null, .null]
        { status := "Not Started".toList, progress := "0/2".toList,
          results := [none, none], tracings := [none, none],
          end_time_set := false }).status = "Completed".toList ∧
    (execute_tests_and_store_results
        (fun i => if i = 0 then .exn (.typeError "boom".toList)
                  else .ok (.obj [("status".toList, .str "Passed".toList)]))
        (fun _ => "t".toList)
        (.obj [("template_type".toList, .str "Test Run".toList)])
        (some "tmpl1".toList) [.null, .null]
        { status := "Not Started".toList, progress := "0/2".toList,
          results := [none, none], tracings := [none, none],
          end_time_set := false }).progress =
      natStr 2 ++ "/".toList ++ natStr 2 ∧
    (∀ i, i < 2 →
      (execute_tests_and_store_results
        (fun i => if i = 0 then .exn (.typeError "boom".toList)
                  else .ok (.obj [("status".toList, .str "Passed".toList)]))
        (fun _ => "t".toList)
        (.obj [("template_type".toList, .str "Test Run".toList)])
        (some "tmpl1".toList) [.null, .null]
        { status := "Not Started".toList, progress := "0/2".toList,
          results := [none, none], tracings := [none, none],
          end_time_set := false }).results[i]? =
        some (some (caseResult
          (fun i => if i = 0 then .exn (.typeError "boom".toList)
                    else .ok (.obj [("status".toList, .str "Passed".toList)]))
          i))) ∧
    (∀ i e, i < 2 →
      (fun i => if i = 0 then CaseOutcome.exn (.typeError "boom".toList)
                else .ok (.obj [("status".toList, .str "Passed".toList)])) i =
        .exn e →
      (execute_tests_and_store_results
        (fun i => if i = 0 then .exn (.typeError "boom".toList)
                  else .ok (.obj [("status".toList, .str "Passed".toList)]))
        (fun _ => "t".toList)
        (.obj [("template_type".toList, .str "Test Run".toList)])
        (some "tmpl1".toList) [.null, .null]
        { status := "Not Started".toList, progress := "0/2".toList,
          results := [none, none], tracings := [none, none],
          end_time_set := false }).results[i]? =
        some (some (failedResult (pyErrStr e)))) :=
  c1_run_completes_all_cases _ _ _ _ _ _ rfl rfl rfl rfl

theorem getAddr_mem : ∀ (m : List (Nat × HVal)) (a : Nat) (v : HVal),
    getAddr m a = some v → (a, v) ∈ m
  | [], a, v, h => by simp [getAddr] at h
  | (b, w) :: rest, a, v, h => by
    by_cases hb : b = a
    · subst hb
      simp only [getAddr, if_pos rfl] at h
      injection h with h'
      subst h'
      exact List.mem_cons_self _ _
    · simp only [getAddr, if_neg hb] at h
      exact List.mem_cons_of_mem _ (getAddr_mem rest a v h)

theorem Heap.lt_next_of_get (h : Heap) (hwf : h.wf) (a : Nat) (v : HVal)
    (hg : h.get a = some v) : a < h.next :=
  hwf (a, v) (getAddr_mem h.mem a v hg)

theorem getAddr_setAddr_self : ∀ (m : List (Nat × HVal)) (a : Nat) (v : HVal),
    getAddr (setAddr m a v) a = some v
  | [], a, v => by simp [setAddr, getAddr]
  | (b, w) :: rest, a, v => by
    by_cases hb : b = a
    · subst hb
      simp [setAddr, getAddr]
    · simp only [setAddr, if_neg hb, getAddr]
      exact getAddr_setAddr_self rest a v

theorem pfr_next_mono (gcs : Str → Str) (fp : Str) :
    ∀ fuel : Nat,
      (∀ h a h2 a2, pfrHeap gcs fp fuel h a = some (h2, a2) →
        h.next ≤ h2.next) ∧
      (∀ h a l h2, pfrFields gcs fp fuel h a l = some h2 →
        h.next ≤ h2.next) ∧
      (∀ h l h2 as2, pfrItems gcs fp fuel h l = some (h2, as2) →
        h.next ≤ h2.next) := by
  intro fuel
  induction fuel with
  | zero =>
    exact ⟨fun h a h2 a2 hx => by simp [pfrHeap] at hx,
      fun h a l h2 hx => by simp [pfrFields] at hx,
      fun h l h2 as2 hx => by simp [pfrItems] at hx⟩
  | succ f ih =>
    obtain ⟨ihH, ihF, ihI⟩ := ih
    refine ⟨?_, ?_, ?_⟩
    · intro h a h2 a2 hx
      unfold pfrHeap at hx
      split at hx
      · split at hx
        · injection hx with hx'
          injection hx' with hx1 hx2
          subst hx1
          exact Nat.le_refl _
        · injection hx with hx'
          injection hx' with hx1 hx2
          subst hx1
          exact Nat.le_succ _
      · split at hx
        · rename_i h3 heq3
          injection hx with hx'
          injection hx' with hx1 hx2
          subst hx1
          exact ihF _ _ _ _ heq3
        · cases hx
      · split at hx
        · rename_i h3 addrs3 heq3
          injection hx with hx'
          injection hx' with hx1 hx2
          subst hx1
          exact Nat.le_trans (ihI _ _ _ _ heq3) (Nat.le_succ _)
        · cases hx
      · injection hx with hx'
        injection hx' with hx1 hx2
        subst hx1
        exact Nat.le_refl _
      · cases hx
    · intro h a l h2 hx
      unfold pfrFields at hx
      split at hx
      · injection hx with hx'
        subst hx'
        exact Nat.le_refl _
      · split at hx
        · rename_i h3 va2 heq3
          split at hx
          · have hstep := ihF _ _ _ _ hx
            exact Nat.le_trans (ihH _ _ _ _ heq3) hstep
          · cases hx
        · cases hx
    · intro h l h2 as2 hx
      unfold pfrItems at hx
      split at hx
      · injection hx with hx'
        injection hx' with hx1 hx2
        subst hx1
        exact Nat.le_refl _
      · split at hx
        · rename_i h3 e2 heq3
          split at hx
          · rename_i h4 rest2 heq4
            injection hx with hx'
            injection hx' with hx1 hx2
            subst hx1
            exact Nat.le_trans (ihH _ _ _ _ heq3) (ihI _ _ _ _ heq4)
          · cases hx
        · cases hx

/-- Claim C10 (counterexample): a descriptor whose body is itself a
sequence of placeholder strings is *not* destructively updated: the list
and its string are rebuilt at fresh addresses (5 and 4), only the local
`body` name is rebound, and the caller's stored descriptor -- the dict at
address 0, its body list at address 2 and the placeholder string at
address 3 -- is left exactly as submitted, placeholder intact. -/
theorem c10_list_body_not_mutated_counterexample :
    execute_request_mut (fun _ => "CONTENT".toList) [] 10
        { next := 4,
          mem := [(0, .hdict [("url".toList, 1), ("body".toList, 2)]),
                  (1, .hstr "http://x".toList),
                  (2, .hlist [3]),
                  (3, .hstr "[FILE: f]".toList)] } 0 =
      some ({ next := 6,
              mem := [(5, .hlist [4]),
                      (4, .hstr "CONTENT".toList),
                      (0, .hdict [("url".toList, 1), ("body".toList, 2)]),
                      (1, .hstr "http://x".toList),
                      (2, .hlist [3]),
                      (3, .hstr "[FILE: f]".toList)] }, some 5) ∧
    ({ next := 6,
       mem := [(5, .hlist [4]),
               (4, .hstr "CONTENT".toList),
               (0, .hdict [("url".toList, 1), ("body".toList, 2)]),
               (1, .hstr "http://x".toList),
               (2, .hlist [3]),
               (3, .hstr "[FILE: f]".toList)] } : Heap).get 0 =
      some (.hdict [("url".toList, 1), ("body".toList, 2)]) ∧
    ({ next := 6,
       mem := [(5, .hlist [4]),
               (4, .hstr "CONTENT".toList),
               (0, .hdict [("url".toList, 1), ("body".toList, 2)]),
               (1, .hstr "http://x".toList),
               (2, .hlist [3]),
               (3, .hstr "[FILE: f]".toList)] } : Heap).get 3 =
      some (.hstr "[FILE: f]".toList) :=
  ⟨rfl, rfl, rfl⟩

theorem pfrHeap_dict (gcs : Str → Str) (fp : Str) (f : Nat) (h : Heap)
    (a : Nat) (fields : List (Str × Nat))
    (hget : h.get a = some (.hdict fields)) :
    pfrHeap gcs fp (f + 1) h a =
      match pfrFields gcs fp f h a fields with
      | some h2 => some (h2, a)
      | none => none := by
  unfold pfrHeap
  rw [hget]

theorem pfrHeap_list (gcs : Str → Str) (fp : Str) (f : Nat) (h : Heap)
    (a : Nat) (elems : List Nat)
    (hget : h.get a = some (.hlist elems)) :
    pfrHeap gcs fp (f + 1) h a =
      match pfrItems gcs fp f h elems with
      | some (h2, addrs) => some (h2.alloc (.hlist addrs))
      | none => none := by
  unfold pfrHeap
  rw [hget]

/-- Claim C10 (amended): the descriptor is mutated in place only
partially. With a truthy tracing id and a mapping `headers` (and no body
to resolve), the `X-Litmus-Request` header is written into the caller's
headers mapping in place; `process_file_references` processes a mapping
in place (the returned address is the argument's own), but a sequence is
rebuilt at a *fresh* address, so placeholders inside a body that is
itself a sequence of strings never reach the caller's stored
descriptor. -/
theorem c10_header_in_place_lists_rebuilt :
    (∀ (gcs : Str → Str) (fp : Str) (fuel : Nat) (h : Heap) (rdAddr : Nat)
        (fs : List (Str × Nat)) (ta ha : Nat) (tv : HVal)
        (hfs : List (Str × Nat)),
      h.get rdAddr = some (.hdict fs) →
      lookupN fs "tracing_id".toList = some ta →
      h.get ta = some tv → hTruthy tv = true →
      lookupN fs "headers".toList = some ha →
      h.get ha = some (.hdict hfs) →
      lookupN fs "body".toList = none →
      execute_request_mut gcs fp fuel h rdAddr =
        some (h.set ha (.hdict (setFieldN hfs "X-Litmus-Request".toList ta)),
          none) ∧
      (h.set ha
          (.hdict (setFieldN hfs "X-Litmus-Request".toList ta))).get ha =
        some (.hdict (setFieldN hfs "X-Litmus-Request".toList ta))) ∧
    (∀ (gcs : Str → Str) (fp : Str) (fuel : Nat) (h : Heap) (a : Nat)
        (fields : List (Str × Nat)) (h2 : Heap) (a2 : Nat),
      h.get a = some (.hdict fields) →
      pfrHeap gcs fp fuel h a = some (h2, a2) → a2 = a) ∧
    (∀ (gcs : Str → Str) (fp : Str) (fuel : Nat) (h : Heap) (a : Nat)
        (elems : List Nat) (h2 : Heap) (a2 : Nat),
      h.wf → h.get a = some (.hlist elems) →
      pfrHeap gcs fp fuel h a = some (h2, a2) → a2 ≠ a) := by
  refine ⟨?_, ?_, ?_⟩
  · intro gcs fp fuel h rdAddr fs ta ha tv hfs hrd hlta hgta htv hlha hgha
      hlba
    constructor
    · simp only [execute_request_mut, hrd, hlta, hgta, htv, if_true, hlha,
        hgha, hlba, Option.getD_some]
    · exact getAddr_setAddr_self h.mem ha _
  · intro gcs fp fuel h a fields h2 a2 hget hpfr
    cases fuel with
    | zero => simp [pfrHeap] at hpfr
    | succ f =>
      rw [pfrHeap_dict gcs fp f h a fields hget] at hpfr
      split at hpfr
      · injection hpfr with hp'
        injection hp' with hp1 hp2
        exact hp2.symm
      · cases hpfr
  · intro gcs fp fuel h a elems h2 a2 hwf hget hpfr
    cases fuel with
    | zero => simp [pfrHeap] at hpfr
    | succ f =>
      rw [pfrHeap_list gcs fp f h a elems hget] at hpfr
      split at hpfr
      · rename_i h3 addrs heq3
        injection hpfr with hp'
        injection hp' with hp1 hp2
        have hmono := (pfr_next_mono gcs fp f).2.2 h elems h3 addrs heq3
        have hlt := Heap.lt_next_of_get h hwf a _ hget
        omega
      · cases hpfr

/-- Claim C10 (witness): the amended contract at concrete heaps -- a
tracing header written in place into the caller's headers mapping (no
body present), a dict body processed at its own address, and a list body
rebuilt at a fresh address. -/
theorem c10_header_in_place_lists_rebuilt_witness :
    (execute_request_mut (fun _ => "X".toList) [] 5
        { next := 3,
          mem := [(0, .hdict [("headers".toList, 1), ("tracing_id".toList, 2)]),
                  (1, .hdict []),
                  (2, .hstr "tid".toList)] } 0 =
      some (({ next := 3,
               mem := [(0, .hdict [("headers".toList, 1),
                                   ("tracing_id".toList, 2)]),
                       (1, .hdict []),
                       (2, .hstr "tid".toList)] } : Heap).set 1
          (.hdict (setFieldN [] "X-Litmus-Request".toList 2)), none) ∧
      (({ next := 3,
          mem := [(0, .hdict [("headers".toList, 1), ("tracing_id".toList, 2)]),
                  (1, .hdict []),
                  (2, .hstr "tid".toList)] } : Heap).set 1
          (.hdict (setFieldN [] "X-Litmus-Request".toList 2))).get 1 =
        some (.hdict (setFieldN [] "X-Litmus-Request".toList 2))) ∧
    (0 : Nat) = 0 ∧
    (2 : Nat) ≠ 0 := by
  have h := c10_header_in_place_lists_rebuilt
  refine ⟨h.1 (fun _ => "X".toList) [] 5 _ 0 _ 2 1 (.hstr "tid".toList) []
      rfl rfl rfl rfl rfl rfl rfl, ?_, ?_⟩
  · exact h.2.1 (fun _ => "X".toList) [] 5
      { next := 2, mem := [(0, .hdict [("k".toList, 1)]),
                           (1, .hstr "x".toList)] } 0 [("k".toList, 1)]
      (({ next := 2, mem := [(0, .hdict [("k".toList, 1)]),
                             (1, .hstr "x".toList)] } : Heap).set 0
        (.hdict (setFieldN [("k".toList, 1)] "k".toList 1))) 0 rfl rfl
  · exact h.2.2 (fun _ => "X".toList) [] 5
      { next := 2, mem := [(0, .hlist [1]), (1, .hstr "x".toList)] } 0 [1]
      { next := 3, mem := [(2, .hlist [1]), (0, .hlist [1]),
                           (1, .hstr "x".toList)] } 2
      (by unfold Heap.wf; decide) rfl rfl
